import Mathlib

/-!
# aws-nuke: CloudFormation stack deletion

A shallow embedding of `resources/cloudformation-stack.go`, followed by the `Remove` of
`resources/network-firewall.go` and the custom filters of the IAM resources
(`iam-role.go`, `iam-policy.go`, `iam-role-policy.go`, `iam-role-policy-attachments.go`).

* Go strings are byte sequences (`GoString`); `len` and slicing count bytes.
* The AWS clients (`cfs.svc`, `cfs.iamSvc`) are an arbitrary `Provider σ`: every
  operation maps its input and the provider state to a response and a new state.
* Every provider call is appended to a trace, so that "which calls were issued, in
  which order, with which input" is a statement about a list of `Event`s.
* A Go function returning `error` yields an `Outcome`: `returned none` is `nil`,
  `returned (some e)` a non-nil error, `panicked` a runtime panic (index out of range,
  nil dereference).
* Response members that the code dereferences keep their pointer type as `Option`
  (`LogicalResourceId`, `Role`, `Arn`), a nil there being a panic. The `StackName` of the
  handle, which the lister copies from a listed stack, is a plain string.
* A waiter (`NewStackDeleteCompleteWaiter(...).Wait`) is one provider operation: its
  polling is not unfolded.
* Logging (`logrus`, `fmt.Println`) and `time.Sleep` do not influence control flow and
  are not recorded.
* Of the libraries, `(*smithy.OperationError).Error` and the property bag of libnuke
  (`types.Properties`) are written out; `strings.TrimSpace`, `Format(time.RFC3339)` and
  `regexp.MatchString` are parameters.
-/

namespace Resources

/-! ## Values -/

/-- Go `string`: a sequence of bytes. -/
abbrev GoString := List UInt8

/-- The bytes (UTF-8) of a string literal of the source. -/
def goStr (s : String) : GoString := s.toList.flatMap String.utf8EncodeChar

/-- The `smithy.OperationError` of smithy-go: the service, the operation and the wrapped
error `Err`, of which only the rendering (`%v`) is kept. -/
structure OperationError where
  ServiceID : GoString
  OperationName : GoString
  Err : GoString
deriving DecidableEq, Repr

/-- The method `(*OperationError).Error` of smithy-go:
`fmt.Sprintf("operation error %s: %s, %v", e.ServiceID, e.OperationName, e.Err)`. -/
def OperationError.Error (e : OperationError) : GoString :=
  goStr "operation error " ++ e.ServiceID ++ goStr ": " ++ e.OperationName ++ goStr ", " ++ e.Err

/-- A Go `error`, as far as the code looks at it: `text` is `err.Error()`;
`operationError` is `some re` when `errors.As(err, &re)` finds a
`*smithy.OperationError` in the chain of `err`, and `none` when it finds none. -/
structure GoError where
  text : GoString
  operationError : Option OperationError := none
deriving DecidableEq, Repr

/-- An operation error as the error value itself, which is how the SDK clients return a
failed operation: `err.Error()` is then `re.Error()`. -/
def OperationError.toError (re : OperationError) : GoError :=
  { text := re.Error, operationError := some re }

/-- The `errors.New(text)` of Go: a plain error, never an operation error. -/
def errorsNew (text : String) : GoError := { text := goStr text, operationError := none }

/-- The `cloudformationTypes.StackStatus` string type: the constants the code names, the
other constants of the SDK that matter to a reader, and `other raw` for a string `raw`
that is none of these constants. -/
inductive StackStatus where
  | CreateInProgress
  | CreateFailed
  | CreateComplete
  | RollbackInProgress
  | RollbackComplete
  | DeleteInProgress
  | DeleteFailed
  | DeleteComplete
  | UpdateInProgress
  | UpdateComplete
  | UpdateRollbackInProgress
  | UpdateRollbackCompleteCleanupInProgress
  | UpdateRollbackComplete
  | other (raw : GoString)
deriving DecidableEq, Repr

/-- The `cloudformationTypes.ResourceStatus` string type. -/
inductive ResourceStatus where
  | CreateInProgress
  | CreateFailed
  | CreateComplete
  | DeleteInProgress
  | DeleteFailed
  | DeleteComplete
  | DeleteSkipped
  | UpdateComplete
  | other (raw : GoString)
deriving DecidableEq, Repr

/-- A stack tag. -/
structure Tag where
  Key : Option GoString := none
  Value : Option GoString := none
deriving DecidableEq, Repr

/-- The fields of `cloudformationTypes.Stack` the package reads. Times are instants
(nanoseconds since the epoch). -/
structure Stack where
  StackName : GoString
  StackStatus : StackStatus := StackStatus.CreateComplete
  ParentId : Option GoString := none
  CreationTime : Int := 0
  LastUpdatedTime : Option Int := none
  Tags : List Tag := []
deriving DecidableEq, Repr

/-- One entry of `ListStackResourcesOutput.StackResourceSummaries`. -/
structure StackResourceSummary where
  LogicalResourceId : Option GoString
  ResourceStatus : ResourceStatus
deriving DecidableEq, Repr

/-- The input of the delete-stack call. -/
structure DeleteStackInput where
  StackName : GoString
  RetainResources : List GoString := []
  RoleARN : Option GoString := none
deriving DecidableEq, Repr

/-- An IAM role (`iamTypes.Role`), reduced to its arn. -/
structure Role where
  Arn : Option GoString
deriving DecidableEq, Repr

/-- The output of get-role. -/
structure GetRoleOutput where
  Role : Option Role
deriving DecidableEq, Repr

/-- The output of create-role. -/
structure CreateRoleOutput where
  Role : Option Role
deriving DecidableEq, Repr

/-- The input of create-role. -/
structure CreateRoleInput where
  AssumeRolePolicyDocument : GoString
  Description : GoString
  RoleName : GoString
deriving DecidableEq, Repr

/-- The input of attach-role-policy. -/
structure AttachRolePolicyInput where
  PolicyArn : GoString
  RoleName : GoString
deriving DecidableEq, Repr

/-- The two settings registered for the resource, as read by `settings.GetBool`. -/
structure Settings where
  DisableDeletionProtection : Bool := false
  EnableAutomaticRoleManagment : Bool := false
deriving DecidableEq, Repr

/-- The receiver of the methods: `stack`, `deleteRoleArn`, `maxDeleteAttempts`,
`settings` (the clients and the context are the `Provider`). -/
structure CloudFormationStack where
  stack : Stack
  deleteRoleArn : Option GoString := none
  maxDeleteAttempts : Int
  settings : Settings := {}
deriving DecidableEq, Repr

/-! ## Constants -/

def CloudformationMaxDeleteAttempt : Int := 3

/-- The `time.Duration(5) * time.Minute`, in nanoseconds. -/
def MaxWaitTime : Nat := 5 * (60 * 1000000000)

def ServiceRoleName : GoString := goStr "nuke-service-role-CFS"

/-! ## Provider and trace -/

/-- A provider call, with its input. -/
inductive Event where
  | describeStacks (stackName : GoString)
  | listStackResources (stackName : GoString)
  | deleteStack (input : DeleteStackInput)
  | updateTerminationProtection (enable : Bool) (stackName : GoString)
  | waitStackDeleteComplete (stackName : GoString) (maxWait : Nat)
  | waitStackUpdateComplete (stackName : GoString) (maxWait : Nat)
  | waitStackCreateComplete (stackName : GoString) (maxWait : Nat)
  | getRole (roleName : GoString)
  | createRole (input : CreateRoleInput)
  | attachRolePolicy (input : AttachRolePolicyInput)
  | deleteRole (roleName : GoString)
deriving DecidableEq, Repr

/-- The CloudFormation and IAM clients: each operation answers from the provider state
`σ` and moves it. An operation returning `error` answers `Option GoError`; one returning
an output and an error answers `Except`. `GetRole` answers only its output pointer,
since the code drops its error. -/
structure Provider (σ : Type) where
  DescribeStacks : GoString → σ → Except GoError (List Stack) × σ
  ListStackResources : GoString → σ → Except GoError (List StackResourceSummary) × σ
  DeleteStack : DeleteStackInput → σ → Option GoError × σ
  UpdateTerminationProtection : Bool → GoString → σ → Option GoError × σ
  WaitStackDeleteComplete : GoString → Nat → σ → Option GoError × σ
  WaitStackUpdateComplete : GoString → Nat → σ → Option GoError × σ
  WaitStackCreateComplete : GoString → Nat → σ → Option GoError × σ
  GetRole : GoString → σ → Option GetRoleOutput × σ
  CreateRole : CreateRoleInput → σ → Except GoError CreateRoleOutput × σ
  AttachRolePolicy : AttachRolePolicyInput → σ → Option GoError × σ
  DeleteRole : GoString → σ → Option GoError × σ

/-- The provider state and the calls issued so far, oldest first. -/
structure World (σ : Type) where
  st : σ
  trace : List Event

/-- What a Go function of result type `error` does: return (nil or an error) or panic. -/
inductive Outcome where
  | returned (err : Option GoError)
  | panicked
deriving DecidableEq, Repr

variable {σ : Type}

/-- Issue a call: record it and move the provider state. -/
def World.call {α : Type} (w : World σ) (ev : Event) (op : σ → α × σ) : α × World σ :=
  ((op w.st).1, { st := (op w.st).2, trace := w.trace ++ [ev] })

def svcDescribeStacks (P : Provider σ) (stackName : GoString) (w : World σ) :
    Except GoError (List Stack) × World σ :=
  w.call (Event.describeStacks stackName) (P.DescribeStacks stackName)

def svcListStackResources (P : Provider σ) (stackName : GoString) (w : World σ) :
    Except GoError (List StackResourceSummary) × World σ :=
  w.call (Event.listStackResources stackName) (P.ListStackResources stackName)

def svcDeleteStack (P : Provider σ) (input : DeleteStackInput) (w : World σ) :
    Option GoError × World σ :=
  w.call (Event.deleteStack input) (P.DeleteStack input)

def svcUpdateTerminationProtection (P : Provider σ) (enable : Bool) (stackName : GoString)
    (w : World σ) : Option GoError × World σ :=
  w.call (Event.updateTerminationProtection enable stackName)
    (P.UpdateTerminationProtection enable stackName)

def waitStackDeleteComplete (P : Provider σ) (stackName : GoString) (maxWait : Nat)
    (w : World σ) : Option GoError × World σ :=
  w.call (Event.waitStackDeleteComplete stackName maxWait)
    (P.WaitStackDeleteComplete stackName maxWait)

def waitStackUpdateComplete (P : Provider σ) (stackName : GoString) (maxWait : Nat)
    (w : World σ) : Option GoError × World σ :=
  w.call (Event.waitStackUpdateComplete stackName maxWait)
    (P.WaitStackUpdateComplete stackName maxWait)

def waitStackCreateComplete (P : Provider σ) (stackName : GoString) (maxWait : Nat)
    (w : World σ) : Option GoError × World σ :=
  w.call (Event.waitStackCreateComplete stackName maxWait)
    (P.WaitStackCreateComplete stackName maxWait)

def iamGetRole (P : Provider σ) (roleName : GoString) (w : World σ) :
    Option GetRoleOutput × World σ :=
  w.call (Event.getRole roleName) (P.GetRole roleName)

def iamCreateRole (P : Provider σ) (input : CreateRoleInput) (w : World σ) :
    Except GoError CreateRoleOutput × World σ :=
  w.call (Event.createRole input) (P.CreateRole input)

def iamAttachRolePolicy (P : Provider σ) (input : AttachRolePolicyInput) (w : World σ) :
    Option GoError × World σ :=
  w.call (Event.attachRolePolicy input) (P.AttachRolePolicy input)

def iamDeleteRole (P : Provider σ) (roleName : GoString) (w : World σ) :
    Option GoError × World σ :=
  w.call (Event.deleteRole roleName) (P.DeleteRole roleName)

/-! ## The methods of `CloudFormationStack` -/

namespace CloudFormationStack

/-- The switch of `waitForStackToStabilize`. -/
def waitForStackToStabilize (cfs : CloudFormationStack) (P : Provider σ)
    (currentStatus : StackStatus) (w : World σ) : Option GoError × World σ :=
  match currentStatus with
  | StackStatus.UpdateInProgress
  | StackStatus.UpdateRollbackCompleteCleanupInProgress
  | StackStatus.UpdateRollbackInProgress =>
    waitStackUpdateComplete P cfs.stack.StackName MaxWaitTime w
  | StackStatus.CreateInProgress
  | StackStatus.RollbackInProgress =>
    waitStackCreateComplete P cfs.stack.StackName MaxWaitTime w
  | _ => (none, w)

/-- The loop of `doRemove` that collects the logical ids to retain; `none` is the panic
of `*r.LogicalResourceId` on a nil id. -/
def retainResources : List StackResourceSummary → Option (List GoString)
  | [] => some []
  | r :: rest =>
    if r.ResourceStatus ≠ ResourceStatus.DeleteComplete then
      match r.LogicalResourceId with
      | none => none
      | some id => (retainResources rest).map (fun retain => id :: retain)
    else retainResources rest

/-- One attempt: `doRemove`. -/
def doRemove (cfs : CloudFormationStack) (P : Provider σ) (w : World σ) :
    Outcome × World σ :=
  let o := svcDescribeStacks P cfs.stack.StackName w
  match o.1 with
  | Except.error err =>
    if err.operationError.isSome then (Outcome.returned none, o.2)
    else (Outcome.returned (some err), o.2)
  | Except.ok [] => (Outcome.panicked, o.2)
  | Except.ok (stack :: _) =>
    if stack.StackStatus = StackStatus.DeleteComplete then
      (Outcome.returned none, o.2)
    else if stack.StackStatus = StackStatus.DeleteInProgress then
      let wt := waitStackDeleteComplete P cfs.stack.StackName MaxWaitTime o.2
      (Outcome.returned wt.1, wt.2)
    else if stack.StackStatus = StackStatus.DeleteFailed then
      let l := svcListStackResources P cfs.stack.StackName o.2
      match l.1 with
      | Except.error err => (Outcome.returned (some err), l.2)
      | Except.ok summaries =>
        match retainResources summaries with
        | none => (Outcome.panicked, l.2)
        | some retain =>
          let d := svcDeleteStack P
            { StackName := cfs.stack.StackName, RetainResources := retain,
              RoleARN := cfs.deleteRoleArn } l.2
          match d.1 with
          | some err => (Outcome.returned (some err), d.2)
          | none =>
            let wt := waitStackDeleteComplete P cfs.stack.StackName MaxWaitTime d.2
            (Outcome.returned wt.1, wt.2)
    else
      let s := cfs.waitForStackToStabilize P stack.StackStatus o.2
      match s.1 with
      | some err => (Outcome.returned (some err), s.2)
      | none =>
        let d := svcDeleteStack P
          { StackName := cfs.stack.StackName, RoleARN := cfs.deleteRoleArn } s.2
        match d.1 with
        | some err => (Outcome.returned (some err), d.2)
        | none =>
          let wt := waitStackDeleteComplete P cfs.stack.StackName MaxWaitTime d.2
          match wt.1 with
          | some err => (Outcome.returned (some err), wt.2)
          | none => (Outcome.returned none, wt.2)

/-- The message the code compares an operation error with. -/
def terminationProtectionMessage (cfs : CloudFormationStack) : GoString :=
  goStr "Stack [" ++ cfs.stack.StackName ++
    goStr "] cannot be deleted while TerminationProtection is enabled"

/-- The test `errors.As(err, &re) && re.Error() == "Stack [...] cannot be deleted while
TerminationProtection is enabled"`. -/
def isTerminationProtection (cfs : CloudFormationStack) (err : GoError) : Bool :=
  match err.operationError with
  | some re => re.Error == cfs.terminationProtectionMessage
  | none => false

/-- The error of an exhausted attempt budget. -/
def attemptsExhausted : GoError := errorsNew "CFS might not be deleted after this run"

/-- The block of `removeWithAttempts` that handles a failed attempt before the attempt
bound is looked at: `some e` is an early `return e`, `none` falls through. -/
def negotiateProtection (cfs : CloudFormationStack) (P : Provider σ) (err : GoError)
    (w : World σ) : Option GoError × World σ :=
  if cfs.isTerminationProtection err then
    if cfs.settings.DisableDeletionProtection then
      svcUpdateTerminationProtection P false cfs.stack.StackName w
    else (some err, w)
  else (none, w)

/-- The attempt loop: `removeWithAttempts`. -/
def removeWithAttempts (cfs : CloudFormationStack) (P : Provider σ) (attempt : Int)
    (w : World σ) : Outcome × World σ :=
  let r := cfs.doRemove P w
  match r.1 with
  | Outcome.panicked => (Outcome.panicked, r.2)
  | Outcome.returned none => (Outcome.returned none, r.2)
  | Outcome.returned (some err) =>
    let n := cfs.negotiateProtection P err r.2
    match n.1 with
    | some e => (Outcome.returned (some e), n.2)
    | none =>
      if h : attempt ≥ cfs.maxDeleteAttempts then
        (Outcome.returned (some attemptsExhausted), n.2)
      else
        removeWithAttempts cfs P (attempt + 1) n.2
termination_by (cfs.maxDeleteAttempts - attempt).toNat
decreasing_by omega

/-- The role name of `createServiceRoleArn`: `ServiceRoleName + "-" + StackName`, cut to
its first 64 bytes when longer. -/
def createRoleName (cfs : CloudFormationStack) : GoString :=
  let serviceRoleName := ServiceRoleName ++ goStr "-" ++ cfs.stack.StackName
  if serviceRoleName.length > 64 then serviceRoleName.take 64 else serviceRoleName

/-- The role name of `deleteServiceRoleArn`: `ServiceRoleName + "-" + StackName`. -/
def deleteRoleName (cfs : CloudFormationStack) : GoString :=
  ServiceRoleName ++ goStr "-" ++ cfs.stack.StackName

/-- The `params` of `createServiceRoleArn`. -/
def createRoleParams (cfs : CloudFormationStack) : CreateRoleInput :=
  { AssumeRolePolicyDocument := goStr "\x7b\"Version\": \"2012-10-17\",\"Statement\": [\x7b\"Effect\": \"Allow\",\"Principal\": \x7b\"Service\": \"cloudformation.amazonaws.com\"\x7d,\"Action\": \"sts:AssumeRole\"\x7d]\x7d",
    Description := goStr "A service role is required to delete a cloudformation stack for which a specific role was used which no longer exists",
    RoleName := cfs.createRoleName }

/-- The `attachPolicyParams` of `createServiceRoleArn`. -/
def attachPolicyParams (cfs : CloudFormationStack) : AttachRolePolicyInput :=
  { PolicyArn := goStr "arn:aws:iam::aws:policy/AdministratorAccess",
    RoleName := cfs.createRoleName }

/-- The test `role != nil && role.Role != nil` on the output of get-role. -/
def roleExists (role : Option GetRoleOutput) : Bool :=
  match role with
  | some out => out.Role.isSome
  | none => false

/-- Provisioning: `createServiceRoleArn`. The receiver is returned, since the method
assigns `cfs.deleteRoleArn`. -/
def createServiceRoleArn (cfs : CloudFormationStack) (P : Provider σ) (w : World σ) :
    Outcome × CloudFormationStack × World σ :=
  let g := iamGetRole P cfs.createRoleName w
  if roleExists g.1 then
    (Outcome.returned none, cfs, g.2)
  else
    let c := iamCreateRole P cfs.createRoleParams g.2
    match c.1 with
    | Except.error err => (Outcome.returned (some err), cfs, c.2)
    | Except.ok roleCreationOutput =>
      match roleCreationOutput.Role with
      | none => (Outcome.panicked, cfs, c.2)
      | some role =>
        let cfs1 := { cfs with deleteRoleArn := role.Arn }
        match cfs1.deleteRoleArn with
        | none => (Outcome.panicked, cfs1, c.2)
        | some _ =>
          let a := iamAttachRolePolicy P cfs.attachPolicyParams c.2
          match a.1 with
          | some err => (Outcome.returned (some err), cfs1, a.2)
          | none => (Outcome.returned none, cfs1, a.2)

/-- Teardown: `deleteServiceRoleArn`. -/
def deleteServiceRoleArn (cfs : CloudFormationStack) (P : Provider σ) (w : World σ) :
    Option GoError × World σ :=
  iamDeleteRole P cfs.deleteRoleName w

/-- The operation handed to the scheduler: `Remove`. -/
def Remove (cfs : CloudFormationStack) (P : Provider σ) (w : World σ) :
    Outcome × CloudFormationStack × World σ :=
  let p : Outcome × CloudFormationStack × World σ :=
    if cfs.settings.EnableAutomaticRoleManagment then cfs.createServiceRoleArn P w
    else (Outcome.returned none, cfs, w)
  match p.1 with
  | Outcome.panicked => (Outcome.panicked, p.2.1, p.2.2)
  | Outcome.returned (some err) => (Outcome.returned (some err), p.2.1, p.2.2)
  | Outcome.returned none =>
    let cfs1 := p.2.1
    let r := cfs1.removeWithAttempts P 0 p.2.2
    match r.1 with
    | Outcome.panicked => (Outcome.panicked, cfs1, r.2)
    | Outcome.returned err =>
      if cfs1.settings.EnableAutomaticRoleManagment then
        let d := cfs1.deleteServiceRoleArn P r.2
        match d.1 with
        | some delErr => (Outcome.returned (some delErr), cfs1, d.2)
        | none => (Outcome.returned err, cfs1, d.2)
      else (Outcome.returned err, cfs1, r.2)

end CloudFormationStack

/-! ## Reading a trace -/

def Event.isDescribeStacks : Event → Bool
  | Event.describeStacks _ => true
  | _ => false

def Event.isDeleteStack : Event → Bool
  | Event.deleteStack _ => true
  | _ => false

def Event.isUpdateTerminationProtection : Event → Bool
  | Event.updateTerminationProtection _ _ => true
  | _ => false

def Event.isWait : Event → Bool
  | Event.waitStackDeleteComplete _ _ => true
  | Event.waitStackUpdateComplete _ _ => true
  | Event.waitStackCreateComplete _ _ => true
  | _ => false

def Event.isCreateRole : Event → Bool
  | Event.createRole _ => true
  | _ => false

def Event.isDeleteRole : Event → Bool
  | Event.deleteRole _ => true
  | _ => false

/-- A call to the IAM client (`cfs.iamSvc`), as opposed to the CloudFormation client. -/
def Event.isIam : Event → Bool
  | Event.getRole _ => true
  | Event.createRole _ => true
  | Event.attachRolePolicy _ => true
  | Event.deleteRole _ => true
  | _ => false

/-- A call of an attempt after its probe: a CloudFormation call that is neither a probe
nor a protection toggle. -/
def Event.isAttemptStep (ev : Event) : Bool :=
  !ev.isIam && !ev.isDescribeStacks && !ev.isUpdateTerminationProtection

/-- The calls issued on the way from `w` to `w1`. -/
def newCalls (w w1 : World σ) : List Event := w1.trace.drop w.trace.length

/-- The trace of `w1` is the trace of `w` followed by calls that all satisfy `p`. -/
def Grows (p : Event → Bool) (w w1 : World σ) : Prop :=
  ∃ evs, w1.trace = w.trace ++ evs ∧ ∀ ev ∈ evs, p ev = true

/-- The probe answers that make an attempt a terminal success: an error that `errors.As`
recognises as an operation error (how the code recognises not-found), or a first stack
whose status is `DeleteComplete`. -/
def probeGone : Except GoError (List Stack) → Bool
  | Except.error err => err.operationError.isSome
  | Except.ok [] => false
  | Except.ok (stack :: _) => decide (stack.StackStatus = StackStatus.DeleteComplete)

/-! ## Concrete runs

Providers without state (`σ = Unit`) for a stack named `app`, used to run the code on
explicit inputs. -/

namespace Scenario

/-- The stack handle as the lister builds it, for a stack named `app`. -/
def handle (settings : Settings) : CloudFormationStack :=
  { stack := { StackName := goStr "app" },
    maxDeleteAttempts := CloudformationMaxDeleteAttempt,
    settings := settings }

/-- No call issued yet. -/
def start : World Unit := { st := (), trace := [] }

/-- The world of a stateless provider after the calls `evs`. -/
def after (evs : List Event) : World Unit := { st := (), trace := evs }

def accessDenied : GoError := { text := goStr "AccessDenied" }

def roleInUse : GoError := { text := goStr "DeleteConflict" }

def waitTimedOut : GoError := { text := goStr "exceeded max wait time for StackDeleteComplete waiter" }

/-- The operation error of a describe-stacks call for a stack that does not exist. -/
def stackNotFound : GoError :=
  OperationError.toError
    { ServiceID := goStr "CloudFormation", OperationName := goStr "DescribeStacks",
      Err := goStr "https response error StatusCode: 400, RequestID: 5d1f, api error ValidationError: Stack with id app does not exist" }

/-- The operation error of a delete-stack call on the stack `app` while its termination
protection is enabled: the message of the service is the cause inside the operation
error. -/
def protectionBlocked : GoError :=
  OperationError.toError
    { ServiceID := goStr "CloudFormation", OperationName := goStr "DeleteStack",
      Err := goStr "https response error StatusCode: 400, RequestID: 7e2a, api error ValidationError: Stack [app] cannot be deleted while TerminationProtection is enabled" }

/-- A provider on which every call succeeds: the stack is `CreateComplete`, has no
children, and no service role exists yet. -/
def calm : Provider Unit where
  DescribeStacks := fun name s => (Except.ok [{ StackName := name }], s)
  ListStackResources := fun _ s => (Except.ok [], s)
  DeleteStack := fun _ s => (none, s)
  UpdateTerminationProtection := fun _ _ s => (none, s)
  WaitStackDeleteComplete := fun _ _ s => (none, s)
  WaitStackUpdateComplete := fun _ _ s => (none, s)
  WaitStackCreateComplete := fun _ _ s => (none, s)
  GetRole := fun _ s => (none, s)
  CreateRole := fun input s =>
    (Except.ok { Role := some { Arn := some (goStr "arn:aws:iam::1:role/" ++ input.RoleName) } }, s)
  AttachRolePolicy := fun _ s => (none, s)
  DeleteRole := fun _ s => (none, s)

/-- Every delete-stack call is refused. -/
def deleteDenied : Provider Unit :=
  { calm with DeleteStack := fun _ s => (some accessDenied, s) }

/-- The policy attachment is refused. -/
def attachDenied : Provider Unit :=
  { calm with AttachRolePolicy := fun _ s => (some accessDenied, s) }

/-- The role creation is refused. -/
def createDenied : Provider Unit :=
  { calm with CreateRole := fun _ s => (Except.error accessDenied, s) }

/-- The service role exists already. -/
def roleReady : Provider Unit :=
  { calm with
    GetRole := fun name s =>
      (some { Role := some { Arn := some (goStr "arn:aws:iam::1:role/" ++ name) } }, s) }

/-- The role deletion is refused. -/
def teardownDenied : Provider Unit :=
  { calm with DeleteRole := fun _ s => (some roleInUse, s) }

/-- The stack is gone: the probe fails with not-found. -/
def gone : Provider Unit :=
  { calm with DescribeStacks := fun _ s => (Except.error stackNotFound, s) }

/-- The stack is gone and the role deletion is refused. -/
def goneTeardownDenied : Provider Unit :=
  { gone with DeleteRole := fun _ s => (some roleInUse, s) }

/-- The stack has termination protection: every delete-stack call is refused with the
operation error `protectionBlocked`. -/
def protectedStack : Provider Unit :=
  { calm with DeleteStack := fun _ s => (some protectionBlocked, s) }

/-- The stack has termination protection and the role deletion is refused. -/
def protectedTeardownDenied : Provider Unit :=
  { protectedStack with DeleteRole := fun _ s => (some roleInUse, s) }

/-- The stack stays in `DeleteInProgress` and every delete-complete wait times out. -/
def deleting : Provider Unit :=
  { calm with
    DescribeStacks := fun name s =>
      (Except.ok [{ StackName := name, StackStatus := StackStatus.DeleteInProgress }], s)
    WaitStackDeleteComplete := fun _ _ s => (some waitTimedOut, s) }

/-- The stack is `DeleteFailed` with the children `A` (deleted) and `B` (still there). -/
def deleteFailed : Provider Unit :=
  { calm with
    DescribeStacks := fun name s =>
      (Except.ok [{ StackName := name, StackStatus := StackStatus.DeleteFailed }], s)
    ListStackResources := fun _ s =>
      (Except.ok
        [{ LogicalResourceId := some (goStr "A"), ResourceStatus := ResourceStatus.DeleteComplete },
         { LogicalResourceId := some (goStr "B"), ResourceStatus := ResourceStatus.CreateComplete }],
       s) }

end Scenario

/-! ## Stabilization, in the words of the specification -/

/-- What `waitForStackToStabilize` may do. -/
inductive StabilizeAction where
  | waitCreateComplete
  | waitUpdateComplete
  | nothing
deriving DecidableEq, Repr

/-- The mapping of the specification: `CreateInProgress`/`RollbackInProgress` wait for
create-complete; `UpdateInProgress`/`UpdateRollbackInProgress`/
`UpdateRollbackCompleteCleanupInProgress` wait for update-complete; any other status is a
no-op. -/
def stabilizeActionSpec (status : StackStatus) : StabilizeAction :=
  if status = StackStatus.CreateInProgress ∨ status = StackStatus.RollbackInProgress then
    StabilizeAction.waitCreateComplete
  else if status = StackStatus.UpdateInProgress ∨ status = StackStatus.UpdateRollbackInProgress ∨
      status = StackStatus.UpdateRollbackCompleteCleanupInProgress then
    StabilizeAction.waitUpdateComplete
  else StabilizeAction.nothing

/-- Carrying out a `StabilizeAction` on the stack of `cfs`. -/
def runStabilizeAction (cfs : CloudFormationStack) (P : Provider σ) (action : StabilizeAction)
    (w : World σ) : Option GoError × World σ :=
  match action with
  | StabilizeAction.waitCreateComplete =>
    waitStackCreateComplete P cfs.stack.StackName MaxWaitTime w
  | StabilizeAction.waitUpdateComplete =>
    waitStackUpdateComplete P cfs.stack.StackName MaxWaitTime w
  | StabilizeAction.nothing => (none, w)

/-- The calls a `StabilizeAction` issues. -/
def stabilizeCalls (cfs : CloudFormationStack) (action : StabilizeAction) : List Event :=
  match action with
  | StabilizeAction.waitCreateComplete =>
    [Event.waitStackCreateComplete cfs.stack.StackName MaxWaitTime]
  | StabilizeAction.waitUpdateComplete =>
    [Event.waitStackUpdateComplete cfs.stack.StackName MaxWaitTime]
  | StabilizeAction.nothing => []

/-! ## The role name, in the words of the specification -/

/-- The first 64 bytes of `nuke-service-role-CFS-` followed by the stack name. -/
def roleNameSpec (stackName : GoString) : GoString :=
  (goStr "nuke-service-role-CFS-" ++ stackName).take 64

/-! ## The attempt loop with its attempt indices -/

namespace CloudFormationStack

/-- The recursion of `removeWithAttempts`, returning besides its result the attempts made,
oldest first: for each call of `doRemove` the value of `attempt` and what that call
returned. -/
def removeWithAttemptsIndexed (cfs : CloudFormationStack) (P : Provider σ) (attempt : Int)
    (w : World σ) : (Outcome × World σ) × List (Int × Outcome) :=
  let r := cfs.doRemove P w
  match r.1 with
  | Outcome.panicked => ((Outcome.panicked, r.2), [(attempt, r.1)])
  | Outcome.returned none => ((Outcome.returned none, r.2), [(attempt, r.1)])
  | Outcome.returned (some err) =>
    let n := cfs.negotiateProtection P err r.2
    match n.1 with
    | some e => ((Outcome.returned (some e), n.2), [(attempt, r.1)])
    | none =>
      if h : attempt ≥ cfs.maxDeleteAttempts then
        ((Outcome.returned (some attemptsExhausted), n.2), [(attempt, r.1)])
      else
        ((removeWithAttemptsIndexed cfs P (attempt + 1) n.2).1,
          (attempt, r.1) :: (removeWithAttemptsIndexed cfs P (attempt + 1) n.2).2)
termination_by (cfs.maxDeleteAttempts - attempt).toNat
decreasing_by all_goals omega

end CloudFormationStack

/-! ## The property set -/

/-- The `types.Properties` of libnuke, a `map[string]string`: its entries in the order
they were set, the latest first. -/
structure PropertyBag where
  entries : List (GoString × GoString)
deriving DecidableEq, Repr

namespace PropertyBag

/-- The empty bag of `types.NewProperties()`. -/
def NewProperties : PropertyBag := { entries := [] }

/-- The entry of a key in a list of entries: the latest one. -/
def lookup : List (GoString × GoString) → GoString → Option GoString
  | [], _ => none
  | (k, v) :: rest, key => if k = key then some v else lookup rest key

/-- Reading `p[key]`: `none` for an absent key. -/
def get (p : PropertyBag) (key : GoString) : Option GoString := lookup p.entries key

/-- The method `Properties.Set` of libnuke for a value of type `*string`: a nil pointer
leaves the bag as it is (`return p`), another one is stored (`p[key] = *v`). A value of
type `string`, which `Set` stores as it is, is passed as `some`. -/
def Set (p : PropertyBag) (key : GoString) (value : Option GoString) : PropertyBag :=
  match value with
  | none => p
  | some v => { entries := (key, v) :: p.entries }

/-- The method `Properties.SetTag` of libnuke (`SetTagWithPrefix` with an empty prefix): a
nil key leaves the bag as it is, and so does a key that is empty once `strings.TrimSpace`
(the parameter `trimSpace`) has trimmed it; otherwise the value is handed to `Set` under
the trimmed key behind `tag:`. -/
def SetTag (trimSpace : GoString → GoString) (p : PropertyBag) (tagKey : Option GoString)
    (tagValue : Option GoString) : PropertyBag :=
  match tagKey with
  | none => p
  | some key =>
    let keyStr := trimSpace key
    if keyStr = [] then p
    else p.Set (goStr "tag:" ++ keyStr) tagValue

end PropertyBag

namespace CloudFormationStack

/-- The method `Properties`: a new bag filled with `Name`, `CreationTime` and
`LastUpdatedTime`, and then with one `SetTag` for every tag of the stack, in order. The
rendering `Format(time.RFC3339)` of an instant is the parameter `rfc3339`, and
`strings.TrimSpace` the parameter `trimSpace`. -/
def Properties (cfs : CloudFormationStack) (rfc3339 : Int → GoString)
    (trimSpace : GoString → GoString) : PropertyBag :=
  let properties := PropertyBag.NewProperties
  let properties := properties.Set (goStr "Name") (some cfs.stack.StackName)
  let properties := properties.Set (goStr "CreationTime") (some (rfc3339 cfs.stack.CreationTime))
  let properties :=
    match cfs.stack.LastUpdatedTime with
    | none => properties.Set (goStr "LastUpdatedTime") (some (rfc3339 cfs.stack.CreationTime))
    | some t => properties.Set (goStr "LastUpdatedTime") (some (rfc3339 t))
  cfs.stack.Tags.foldl (fun p tagValue => p.SetTag trimSpace tagValue.Key tagValue.Value)
    properties

end CloudFormationStack

/-! ## The lister -/

/-- The output of a describe-stacks call without a stack name: one page. -/
structure DescribeStacksOutput where
  Stacks : List Stack
  NextToken : Option GoString
deriving DecidableEq, Repr

/-- The describe-stacks operation as the lister uses it: from the `NextToken` of the
request and the provider state to a page or an error, and a new state. -/
abbrev StackPager (σ : Type) := Option GoString → σ → Except GoError DescribeStacksOutput × σ

namespace CloudFormationStackLister

/-- The test `stack.ParentId != nil && *stack.ParentId != ""` that skips a nested stack. -/
def isNested (stack : Stack) : Bool :=
  match stack.ParentId with
  | some parentId => parentId ≠ []
  | none => false

/-- The handle the lister appends for a listed stack. -/
def newResource (stack : Stack) : CloudFormationStack :=
  { stack := stack, maxDeleteAttempts := CloudformationMaxDeleteAttempt }

/-- The `for` loop of `List`, entered with `params.NextToken = nextToken` and the
resources collected so far. Each round issues one describe-stacks call; `fuel` bounds
the number of rounds, and `none` is a loop that has not ended within `fuel` rounds. -/
def listLoop (D : StackPager σ) (fuel : Nat) (nextToken : Option GoString)
    (resources : List CloudFormationStack) (s : σ) :
    Option (Except GoError (List CloudFormationStack) × σ) :=
  match fuel with
  | 0 => none
  | fuel + 1 =>
    match (D nextToken s).1 with
    | Except.error err => some (Except.error err, (D nextToken s).2)
    | Except.ok resp =>
      let resources1 :=
        resources ++ (resp.Stacks.filter (fun stack => !isNested stack)).map newResource
      match resp.NextToken with
      | none => some (Except.ok resources1, (D nextToken s).2)
      | some token => listLoop D fuel (some token) resources1 (D nextToken s).2

/-- The method `List` of the lister: the loop entered with empty `params` and no
resources. -/
def ListStacks (D : StackPager σ) (fuel : Nat) (s : σ) :
    Option (Except GoError (List CloudFormationStack) × σ) :=
  listLoop D fuel none [] s

end CloudFormationStackLister

/-- The pages the provider hands out when the tokens are followed from `token` in state
`s` until a page without `NextToken`: `Paged D token s pages s1` lists their stacks in
order and ends in state `s1`. -/
inductive Paged (D : StackPager σ) : Option GoString → σ → List (List Stack) → σ → Prop where
  | last (token : Option GoString) (s : σ) (page : List Stack)
      (h : (D token s).1 = Except.ok { Stacks := page, NextToken := none }) :
      Paged D token s [page] (D token s).2
  | more (token : Option GoString) (s s1 : σ) (page : List Stack) (next : GoString)
      (pages : List (List Stack))
      (h : (D token s).1 = Except.ok { Stacks := page, NextToken := some next })
      (rest : Paged D (some next) (D token s).2 pages s1) :
      Paged D token s (page :: pages) s1

namespace Scenario

/-- The stack stays in `UpdateInProgress` and every update-complete wait times out. -/
def updating : Provider Unit :=
  { calm with
    DescribeStacks := fun name s =>
      (Except.ok [{ StackName := name, StackStatus := StackStatus.UpdateInProgress }], s)
    WaitStackUpdateComplete := fun _ _ s => (some waitTimedOut, s) }

/-- The probe fails with an error that is no operation error. -/
def probeBroken : Provider Unit :=
  { calm with DescribeStacks := fun _ s => (Except.error accessDenied, s) }

/-- Two pages of stacks: `root1` and the nested `child` on the first, `root2` (with an
empty parent id) on the second. -/
def twoPages : StackPager Unit := fun token s =>
  match token with
  | none =>
    (Except.ok
      { Stacks := [{ StackName := goStr "root1" },
          { StackName := goStr "child", ParentId := some (goStr "root1") }],
        NextToken := some (goStr "page2") }, s)
  | some _ =>
    (Except.ok
      { Stacks := [{ StackName := goStr "root2", ParentId := some [] }], NextToken := none }, s)

/-- A stack that was never updated, with one tag. -/
def tagged : CloudFormationStack :=
  { stack := { StackName := goStr "app", CreationTime := 1700000000000000000,
               Tags := [{ Key := some (goStr "team"), Value := some (goStr "infra") }] },
    maxDeleteAttempts := CloudformationMaxDeleteAttempt }

end Scenario

/-- A call that lists the child resources of a stack. -/
def Event.isListStackResources : Event → Bool
  | Event.listStackResources _ => true
  | _ => false

/-! ## The network firewall (`resources/network-firewall.go`) -/

/-- One destination of a logging configuration (`networkfirewallTypes.LogDestinationConfig`). -/
structure LogDestinationConfig where
  LogDestinationType : GoString
  LogType : GoString
  LogDestination : List (GoString × GoString) := []
deriving DecidableEq, Repr

/-- The `networkfirewallTypes.LoggingConfiguration`. -/
structure LoggingConfiguration where
  LogDestinationConfigs : List LogDestinationConfig
deriving DecidableEq, Repr

/-- The fields of `networkfirewallTypes.FirewallMetadata`. -/
structure FirewallMetadata where
  FirewallArn : Option GoString
  FirewallName : Option GoString := none
deriving DecidableEq, Repr

/-- A call on the network firewall client, with its input. -/
inductive FirewallEvent where
  | updateLoggingConfiguration (firewallArn : Option GoString)
      (logDestinationConfigs : List LogDestinationConfig)
  | deleteFirewall (firewallArn : Option GoString)
deriving DecidableEq, Repr

/-- The network firewall client, as far as `Remove` uses it. -/
structure FirewallProvider (σ : Type) where
  UpdateLoggingConfiguration :
    Option GoString → List LogDestinationConfig → σ → Option GoError × σ
  DeleteFirewall : Option GoString → σ → Option GoError × σ

/-- The provider state and the firewall calls issued so far, oldest first. -/
structure FirewallWorld (σ : Type) where
  st : σ
  calls : List FirewallEvent

/-- Issue a firewall call: record it and move the provider state. -/
def FirewallWorld.call {α : Type} (w : FirewallWorld σ) (ev : FirewallEvent)
    (op : σ → α × σ) : α × FirewallWorld σ :=
  ((op w.st).1, { st := (op w.st).2, calls := w.calls ++ [ev] })

/-- The receiver of `NetworkFirewall.Remove`: `firewall` and `logConfig` (a pointer). -/
structure NetworkFirewall where
  firewall : FirewallMetadata
  logConfig : Option LoggingConfiguration
deriving DecidableEq, Repr

namespace NetworkFirewall

/-- The `for index := 1; index <= len(...); index++` loop of `Remove`, over the values
`indices` that `index` still has to take: each round issues an
update-logging-configuration call with `LogDestinationConfigs[index:]` and returns its
error, if any. -/
def updateLoop (i : NetworkFirewall) (P : FirewallProvider σ)
    (configs : List LogDestinationConfig) :
    List Nat → FirewallWorld σ → Option GoError × FirewallWorld σ
  | [], w => (none, w)
  | index :: indices, w =>
    let u := w.call
      (FirewallEvent.updateLoggingConfiguration i.firewall.FirewallArn (configs.drop index))
      (P.UpdateLoggingConfiguration i.firewall.FirewallArn (configs.drop index))
    match u.1 with
    | some err => (some err, u.2)
    | none => updateLoop i P configs indices u.2

/-- The method `Remove` of the network firewall. -/
def Remove (i : NetworkFirewall) (P : FirewallProvider σ) (w : FirewallWorld σ) :
    Option GoError × FirewallWorld σ :=
  let l : Option GoError × FirewallWorld σ :=
    match i.logConfig with
    | some logConfig =>
      updateLoop i P logConfig.LogDestinationConfigs
        (List.range' 1 logConfig.LogDestinationConfigs.length) w
    | none => (none, w)
  match l.1 with
  | some err => (some err, l.2)
  | none =>
    let d := l.2.call (FirewallEvent.deleteFirewall i.firewall.FirewallArn)
      (P.DeleteFirewall i.firewall.FirewallArn)
    match d.1 with
    | some err => (some err, d.2)
    | none => (none, d.2)

end NetworkFirewall

def IAMPathName : GoString := goStr "Path"

def IAMTagName : GoString := goStr "Tag"

/-- The type `CustomFilters`: `Type` and `Value`. -/
structure CustomFilters where
  FilterType : GoString
  Value : GoString
deriving DecidableEq, Repr

/-- An `iam.Tag`. -/
structure IAMTag where
  Key : Option GoString
  Value : Option GoString
deriving DecidableEq, Repr

/-- The inner loop `for _, tag := range tags`: `none` when it ends without a return. -/
def tagsLoop (matchString : GoString → GoString → Bool) (value : GoString) :
    List IAMTag → Option Outcome
  | [] => none
  | tag :: tags =>
    match tag.Key with
    | none => some Outcome.panicked
    | some key =>
      match tag.Value with
      | none => some Outcome.panicked
      | some tagValue =>
        if matchString value key then
          some (Outcome.returned (some (errorsNew "filtered by tag key custom filter")))
        else if matchString value tagValue then
          some (Outcome.returned (some (errorsNew "filtered by tag value custom filter")))
        else tagsLoop matchString value tags

/-- The loop `for i := range r.CustomFilters`: `none` when it ends without a return. -/
def customFiltersLoop (matchString : GoString → GoString → Bool) (path : Option GoString)
    (tags : List IAMTag) : List CustomFilters → Option Outcome
  | [] => none
  | filter :: filters =>
    if filter.FilterType = IAMPathName then
      match path with
      | none => some Outcome.panicked
      | some p =>
        if matchString filter.Value p then
          some (Outcome.returned (some (errorsNew "filtered by path custom filter")))
        else customFiltersLoop matchString path tags filters
    else if filter.FilterType = IAMTagName then
      match tagsLoop matchString filter.Value tags with
      | some out => some out
      | none => customFiltersLoop matchString path tags filters
    else customFiltersLoop matchString path tags filters

/-- The setting of the IAM role resource read by `Filter`. -/
structure IAMRoleSettings where
  IncludeServiceLinkedRoles : Bool := false
deriving DecidableEq, Repr

/-- The fields of `IAMRole` the filters read. -/
structure IAMRole where
  settings : IAMRoleSettings := {}
  CustomFilters : List CustomFilters := []
  Path : Option GoString
  Tags : List IAMTag := []
deriving DecidableEq, Repr

/-- The fields of `IAMPolicy` the filter reads. -/
structure IAMPolicy where
  CustomFilters : List CustomFilters := []
  Path : Option GoString
  Tags : List IAMTag := []
deriving DecidableEq, Repr

/-- The fields of `IAMRolePolicy` the filter reads. -/
structure IAMRolePolicy where
  CustomFilters : List CustomFilters := []
  rolePath : GoString
  roleTags : List IAMTag := []
deriving DecidableEq, Repr

/-- The fields of `iam.Role` the filter of an attachment reads. -/
structure IAMRoleData where
  Path : Option GoString
  Tags : List IAMTag := []
deriving DecidableEq, Repr

/-- The fields of `IAMRolePolicyAttachment` the filter reads. -/
structure IAMRolePolicyAttachment where
  CustomFilters : List CustomFilters := []
  policyArn : GoString := []
  role : IAMRoleData
deriving DecidableEq, Repr

/-- The method `FilterbyCustomFilters` of `IAMRole`: the loop, then `return nil`. -/
def IAMRole.FilterbyCustomFilters (r : IAMRole) (matchString : GoString → GoString → Bool) :
    Outcome :=
  match customFiltersLoop matchString r.Path r.Tags r.CustomFilters with
  | some out => out
  | none => Outcome.returned none

/-- The method `FilterbyCustomFilters` of `IAMPolicy`: the loop, then `return nil`. -/
def IAMPolicy.FilterbyCustomFilters (r : IAMPolicy)
    (matchString : GoString → GoString → Bool) : Outcome :=
  match customFiltersLoop matchString r.Path r.Tags r.CustomFilters with
  | some out => out
  | none => Outcome.returned none

/-- The method `FilterbyCustomFilters` of `IAMRolePolicy`: the loop, then `return nil`. -/
def IAMRolePolicy.FilterbyCustomFilters (r : IAMRolePolicy)
    (matchString : GoString → GoString → Bool) : Outcome :=
  match customFiltersLoop matchString (some r.rolePath) r.roleTags r.CustomFilters with
  | some out => out
  | none => Outcome.returned none

/-- The method `FilterbyCustomFilters` of `IAMRolePolicyAttachment`: the loop, then
`return r.FilterbyCustomFilters()`, a call of the method itself. `fuel` bounds the depth
of these calls, and `none` is a call that has not returned within that depth. -/
def IAMRolePolicyAttachment.FilterbyCustomFilters (r : IAMRolePolicyAttachment)
    (matchString : GoString → GoString → Bool) : Nat → Option Outcome
  | 0 => none
  | fuel + 1 =>
    match customFiltersLoop matchString r.role.Path r.role.Tags r.CustomFilters with
    | some out => some out
    | none => IAMRolePolicyAttachment.FilterbyCustomFilters r matchString fuel

/-- The method `Filter` of `IAMRole`. -/
def IAMRole.Filter (r : IAMRole) (matchString : GoString → GoString → Bool) : Outcome :=
  match r.Path with
  | none => Outcome.panicked
  | some path =>
    if (goStr "/aws-service-role/").isPrefixOf path
        && !r.settings.IncludeServiceLinkedRoles then
      Outcome.returned (some (errorsNew "cannot delete service roles"))
    else if (goStr "/aws-reserved/sso.amazonaws.com/").isPrefixOf path then
      Outcome.returned (some (errorsNew "cannot delete SSO roles"))
    else r.FilterbyCustomFilters matchString

namespace Scenario

/-- A stack whose name has 43 bytes, so that the full role name has 65. -/
def longHandle : CloudFormationStack :=
  { stack := { StackName := List.replicate 43 97 },
    maxDeleteAttempts := CloudformationMaxDeleteAttempt,
    settings := { EnableAutomaticRoleManagment := true } }

/-- The operation error of a describe-stacks call that the caller may not make. -/
def describeDenied : GoError :=
  OperationError.toError
    { ServiceID := goStr "CloudFormation", OperationName := goStr "DescribeStacks",
      Err := goStr "https response error StatusCode: 403, RequestID: 3b9c, api error AccessDenied: User is not authorized to perform: cloudformation:DescribeStacks" }

/-- The probe fails with an operation error whose cause is a denied access. -/
def probeDenied : Provider Unit :=
  { calm with DescribeStacks := fun _ s => (Except.error describeDenied, s) }

/-- The operation error of a describe-stacks call that the service throttles. -/
def describeThrottled : GoError :=
  OperationError.toError
    { ServiceID := goStr "CloudFormation", OperationName := goStr "DescribeStacks",
      Err := goStr "https response error StatusCode: 400, RequestID: 9a41, api error Throttling: Rate exceeded" }

/-- The stack exists, and every probe is throttled. -/
def probeThrottled : Provider Unit :=
  { calm with DescribeStacks := fun _ s => (Except.error describeThrottled, s) }

/-- The bytes `strings.TrimSpace` removes from ASCII text: tab, line feed, vertical tab,
form feed, carriage return and space. -/
def isAsciiSpace (c : UInt8) : Bool :=
  c = 9 || c = 10 || c = 11 || c = 12 || c = 13 || c = 32

/-- The `strings.TrimSpace` of Go as it acts on ASCII text: the leading and the trailing
white space is removed. -/
def trimAscii (s : GoString) : GoString :=
  ((s.dropWhile isAsciiSpace).reverse.dropWhile isAsciiSpace).reverse

/-- The RFC3339 rendering (in UTC) of the instants that occur in the runs below. -/
def stamp (t : Int) : GoString :=
  if t = 1700000000000000000 then goStr "2023-11-14T22:13:20Z"
  else if t = 1700003600000000000 then goStr "2023-11-14T23:13:20Z"
  else goStr "1970-01-01T00:00:00Z"

/-- A stack that was never updated, with a tag `team` that has no value and a tag whose
key is one space. -/
def looseTags : CloudFormationStack :=
  { stack := { StackName := goStr "app", CreationTime := 1700000000000000000,
               Tags := [{ Key := some (goStr "team"), Value := none },
                        { Key := some (goStr " "), Value := some (goStr "x") }] },
    maxDeleteAttempts := CloudformationMaxDeleteAttempt }

/-- A firewall client that refuses every update of the logging configuration. -/
def firewallUpdateDenied : FirewallProvider Unit where
  UpdateLoggingConfiguration := fun _ _ s => (some accessDenied, s)
  DeleteFirewall := fun _ s => (none, s)

/-- An attachment to a role with a path, no tags, and no custom filter. -/
def plainAttachment : IAMRolePolicyAttachment :=
  { role := { Path := some (goStr "/") } }

/-- A role with the same path, no tags, and no custom filter. -/
def plainRole : IAMRole := { Path := some (goStr "/") }

/-- A matcher that matches nothing. -/
def matchNothing : GoString → GoString → Bool := fun _ _ => false

/-- A role under the SSO path. -/
def ssoRole : IAMRole :=
  { Path := some (goStr "/aws-reserved/sso.amazonaws.com/" ++ goStr "eu-west-1/") }

/-- A service-linked role, for a run in which `IncludeServiceLinkedRoles` is true. -/
def linkedRole : IAMRole :=
  { Path := some (goStr "/aws-service-role/" ++ goStr "ecs.amazonaws.com/"),
    settings := { IncludeServiceLinkedRoles := true } }

end Scenario

/-! ## Traces only grow -/

theorem Grows.refl (p : Event → Bool) (w : World σ) : Grows p w w :=
  ⟨[], by simp, by simp⟩

theorem Grows.trans {p : Event → Bool} {w w1 w2 : World σ} (h1 : Grows p w w1)
    (h2 : Grows p w1 w2) : Grows p w w2 := by
  obtain ⟨e1, t1, a1⟩ := h1
  obtain ⟨e2, t2, a2⟩ := h2
  refine ⟨e1 ++ e2, by rw [t2, t1, List.append_assoc], ?_⟩
  intro ev hev
  rcases List.mem_append.1 hev with h | h
  · exact a1 ev h
  · exact a2 ev h

theorem Grows.step {α : Type} {p : Event → Bool} {w w1 : World σ} (h : Grows p w w1)
    (ev : Event) (op : σ → α × σ) (hp : p ev = true) : Grows p w (w1.call ev op).2 :=
  h.trans ⟨[ev], rfl, by simpa using hp⟩

theorem newCalls_of_trace {w w1 : World σ} {evs : List Event}
    (h : w1.trace = w.trace ++ evs) : newCalls w w1 = evs := by
  simp [newCalls, h]

namespace CloudFormationStack

theorem waitForStackToStabilize_grows (cfs : CloudFormationStack) (P : Provider σ)
    (status : StackStatus) {w w1 : World σ} (h : Grows (fun ev => !ev.isIam) w w1) :
    Grows (fun ev => !ev.isIam) w (cfs.waitForStackToStabilize P status w1).2 := by
  unfold waitForStackToStabilize
  split
  · exact h.step _ _ rfl
  · exact h.step _ _ rfl
  · exact h.step _ _ rfl
  · exact h.step _ _ rfl
  · exact h.step _ _ rfl
  · exact h

theorem doRemove_grows (cfs : CloudFormationStack) (P : Provider σ) (w : World σ) :
    Grows (fun ev => !ev.isIam) w (cfs.doRemove P w).2 := by
  have h0 : Grows (fun ev => !ev.isIam) w (svcDescribeStacks P cfs.stack.StackName w).2 :=
    (Grows.refl _ w).step _ _ rfl
  unfold doRemove
  simp only []
  repeat' split
  all_goals
    repeat' first
      | exact h0
      | rfl
      | apply waitForStackToStabilize_grows
      | apply Grows.step

theorem negotiateProtection_grows (cfs : CloudFormationStack) (P : Provider σ) (err : GoError)
    (w : World σ) : Grows (fun ev => !ev.isIam) w (cfs.negotiateProtection P err w).2 := by
  unfold negotiateProtection
  split
  · split
    · exact (Grows.refl _ w).step _ _ rfl
    · exact Grows.refl _ w
  · exact Grows.refl _ w

theorem removeWithAttempts_grows (cfs : CloudFormationStack) (P : Provider σ) (attempt : Int)
    (w : World σ) : Grows (fun ev => !ev.isIam) w (cfs.removeWithAttempts P attempt w).2 := by
  generalize h : (cfs.maxDeleteAttempts - attempt).toNat = k
  induction k generalizing attempt w with
  | zero =>
    rw [removeWithAttempts]
    simp only []
    split
    · exact doRemove_grows cfs P w
    · exact doRemove_grows cfs P w
    · split
      · exact (doRemove_grows cfs P w).trans (negotiateProtection_grows cfs P _ _)
      · split
        · exact (doRemove_grows cfs P w).trans (negotiateProtection_grows cfs P _ _)
        · omega
  | succ k ih =>
    rw [removeWithAttempts]
    simp only []
    split
    · exact doRemove_grows cfs P w
    · exact doRemove_grows cfs P w
    · split
      · exact (doRemove_grows cfs P w).trans (negotiateProtection_grows cfs P _ _)
      · split
        · exact (doRemove_grows cfs P w).trans (negotiateProtection_grows cfs P _ _)
        · exact ((doRemove_grows cfs P w).trans (negotiateProtection_grows cfs P _ _)).trans
            (ih _ _ (by omega))

theorem waitForStackToStabilize_steps (cfs : CloudFormationStack) (P : Provider σ)
    (status : StackStatus) {w w1 : World σ} (h : Grows Event.isAttemptStep w w1) :
    Grows Event.isAttemptStep w (cfs.waitForStackToStabilize P status w1).2 := by
  unfold waitForStackToStabilize
  split
  · exact h.step _ _ rfl
  · exact h.step _ _ rfl
  · exact h.step _ _ rfl
  · exact h.step _ _ rfl
  · exact h.step _ _ rfl
  · exact h

/-- After its probe, an attempt issues only attempt steps. -/
theorem doRemove_steps (cfs : CloudFormationStack) (P : Provider σ) (w : World σ) :
    Grows Event.isAttemptStep (svcDescribeStacks P cfs.stack.StackName w).2
      (cfs.doRemove P w).2 := by
  have h0 := Grows.refl Event.isAttemptStep (svcDescribeStacks P cfs.stack.StackName w).2
  unfold doRemove
  simp only []
  repeat' split
  all_goals
    repeat' first
      | exact h0
      | rfl
      | apply waitForStackToStabilize_steps
      | apply Grows.step

/-- An attempt issues exactly one probe, as its first call, and no protection toggle. -/
theorem doRemove_calls (cfs : CloudFormationStack) (P : Provider σ) (w : World σ) :
    (newCalls w (cfs.doRemove P w).2).filter Event.isDescribeStacks
        = [Event.describeStacks cfs.stack.StackName] ∧
    (newCalls w (cfs.doRemove P w).2).filter Event.isUpdateTerminationProtection = [] := by
  obtain ⟨evs, ht, hall⟩ := doRemove_steps cfs P w
  have ht2 : (cfs.doRemove P w).2.trace
      = w.trace ++ Event.describeStacks cfs.stack.StackName :: evs := by
    rw [ht]; simp [svcDescribeStacks, World.call]
  rw [newCalls_of_trace ht2]
  have h1 : evs.filter Event.isDescribeStacks = [] := by
    rw [List.filter_eq_nil_iff]
    intro ev hev
    have := hall ev hev
    simp [Event.isAttemptStep] at this
    simp [this]
  have h2 : evs.filter Event.isUpdateTerminationProtection = [] := by
    rw [List.filter_eq_nil_iff]
    intro ev hev
    have := hall ev hev
    simp [Event.isAttemptStep] at this
    simp [this]
  simp [List.filter_cons, Event.isDescribeStacks, Event.isUpdateTerminationProtection, h1, h2]

/-! ## Unfolding the attempt loop -/

theorem removeWithAttempts_of_ok (cfs : CloudFormationStack) (P : Provider σ) (w w1 : World σ)
    (attempt : Int) (hd : cfs.doRemove P w = (Outcome.returned none, w1)) :
    cfs.removeWithAttempts P attempt w = (Outcome.returned none, w1) := by
  rw [removeWithAttempts]; simp [hd]

theorem removeWithAttempts_of_panic (cfs : CloudFormationStack) (P : Provider σ)
    (w w1 : World σ) (attempt : Int) (hd : cfs.doRemove P w = (Outcome.panicked, w1)) :
    cfs.removeWithAttempts P attempt w = (Outcome.panicked, w1) := by
  rw [removeWithAttempts]; simp [hd]

theorem removeWithAttempts_of_fail (cfs : CloudFormationStack) (P : Provider σ)
    (w w1 w2 : World σ) (err : GoError) (attempt : Int)
    (hd : cfs.doRemove P w = (Outcome.returned (some err), w1))
    (hn : cfs.negotiateProtection P err w1 = (none, w2)) :
    cfs.removeWithAttempts P attempt w =
      if attempt ≥ cfs.maxDeleteAttempts then (Outcome.returned (some attemptsExhausted), w2)
      else cfs.removeWithAttempts P (attempt + 1) w2 := by
  rw [removeWithAttempts]; simp [hd, hn]

/-! ## Provisioning keeps the identity of the handle -/

theorem createServiceRoleArn_stack (cfs : CloudFormationStack) (P : Provider σ) (w : World σ) :
    (cfs.createServiceRoleArn P w).2.1.stack = cfs.stack ∧
    (cfs.createServiceRoleArn P w).2.1.settings = cfs.settings ∧
    (cfs.createServiceRoleArn P w).2.1.maxDeleteAttempts = cfs.maxDeleteAttempts := by
  unfold createServiceRoleArn
  simp only []
  repeat' split
  all_goals exact ⟨rfl, rfl, rfl⟩

theorem createServiceRoleArn_grows (cfs : CloudFormationStack) (P : Provider σ) (w : World σ) :
    Grows Event.isIam w (cfs.createServiceRoleArn P w).2.2 := by
  unfold createServiceRoleArn
  simp only []
  repeat' split
  all_goals
    repeat' first
      | exact Grows.refl _ _
      | rfl
      | apply Grows.step

/-! ## `Remove` in terms of its three stages -/

theorem Remove_of_disabled (cfs : CloudFormationStack) (P : Provider σ) (w : World σ)
    (hen : cfs.settings.EnableAutomaticRoleManagment = false) :
    cfs.Remove P w = ((cfs.removeWithAttempts P 0 w).1, cfs, (cfs.removeWithAttempts P 0 w).2) := by
  unfold Remove
  simp only [hen]
  simp only [Bool.false_eq_true, if_false]
  split <;> simp_all

theorem Remove_of_provisioning_failed (cfs cfs1 : CloudFormationStack) (P : Provider σ)
    (w w1 : World σ) (e : GoError)
    (hen : cfs.settings.EnableAutomaticRoleManagment = true)
    (hp : cfs.createServiceRoleArn P w = (Outcome.returned (some e), cfs1, w1)) :
    cfs.Remove P w = (Outcome.returned (some e), cfs1, w1) := by
  unfold Remove
  simp [hen, hp]

theorem Remove_of_enabled (cfs cfs1 : CloudFormationStack) (P : Provider σ)
    (w w1 w2 : World σ) (err : Option GoError)
    (hen : cfs.settings.EnableAutomaticRoleManagment = true)
    (hp : cfs.createServiceRoleArn P w = (Outcome.returned none, cfs1, w1))
    (hl : cfs1.removeWithAttempts P 0 w1 = (Outcome.returned err, w2)) :
    cfs.Remove P w =
      (Outcome.returned (match (cfs1.deleteServiceRoleArn P w2).1 with
          | some delErr => some delErr
          | none => err),
        cfs1, (cfs1.deleteServiceRoleArn P w2).2) := by
  have hs : cfs1.settings = cfs.settings := by
    have := (createServiceRoleArn_stack cfs P w).2.1
    rw [hp] at this; exact this
  unfold Remove
  simp only [hen, if_true, hp, hl, hs]
  split <;> simp_all

/-- When every attempt fails and falls through the protection block, leaving the world
`next w`, the loop started at index `attempt` makes `maxDeleteAttempts - attempt + 1`
attempts and then reports the exhausted budget. -/
theorem removeWithAttempts_exhausts (cfs : CloudFormationStack) (P : Provider σ)
    (next : World σ → World σ)
    (hfail : ∀ w, ∃ err w1, cfs.doRemove P w = (Outcome.returned (some err), w1) ∧
      cfs.negotiateProtection P err w1 = (none, next w))
    (k : Nat) (attempt : Int) (w : World σ) (hk : attempt + k = cfs.maxDeleteAttempts) :
    cfs.removeWithAttempts P attempt w =
      (Outcome.returned (some attemptsExhausted), next^[k + 1] w) := by
  induction k generalizing attempt w with
  | zero =>
    obtain ⟨err, w1, hd, hn⟩ := hfail w
    rw [removeWithAttempts_of_fail _ _ _ _ _ _ attempt hd hn, if_pos (by omega)]
    rfl
  | succ k ih =>
    obtain ⟨err, w1, hd, hn⟩ := hfail w
    rw [removeWithAttempts_of_fail _ _ _ _ _ _ attempt hd hn, if_neg (by omega),
      ih (attempt + 1) (next w) (by omega)]
    rfl

/-- The calls of a provisioning that returned nil: the lookup alone when the role exists,
else the lookup, the creation and the attachment. -/
theorem createServiceRoleArn_calls (cfs cfs1 : CloudFormationStack) (P : Provider σ)
    (w w1 : World σ) (hp : cfs.createServiceRoleArn P w = (Outcome.returned none, cfs1, w1)) :
    w1.trace = w.trace ++
      (if roleExists (iamGetRole P cfs.createRoleName w).1 then
        [Event.getRole cfs.createRoleName]
      else
        [Event.getRole cfs.createRoleName, Event.createRole cfs.createRoleParams,
          Event.attachRolePolicy cfs.attachPolicyParams]) := by
  unfold createServiceRoleArn at hp
  simp only [] at hp
  split at hp
  · rename_i hex
    simp only [Prod.mk.injEq] at hp
    rw [← hp.2.2, if_pos hex]
    simp [iamGetRole, World.call]
  · rename_i hex
    rw [if_neg hex]
    split at hp
    · simp at hp
    · split at hp
      · simp at hp
      · split at hp
        · simp at hp
        · split at hp
          · simp at hp
          · simp only [Prod.mk.injEq] at hp
            rw [← hp.2.2]
            simp [iamGetRole, iamCreateRole, iamAttachRolePolicy, World.call]

/-- The attempt on a stack that is gone: the probe is its only call and it returns nil. -/
theorem doRemove_of_gone (cfs : CloudFormationStack) (P : Provider σ) (w : World σ)
    (hgone : probeGone (svcDescribeStacks P cfs.stack.StackName w).1 = true) :
    cfs.doRemove P w = (Outcome.returned none, (svcDescribeStacks P cfs.stack.StackName w).2) := by
  unfold doRemove
  simp only []
  split
  · rename_i err herr
    rw [herr] at hgone
    simp only [probeGone] at hgone
    simp [hgone]
  · rename_i herr
    rw [herr] at hgone
    simp [probeGone] at hgone
  · rename_i stack rest herr
    rw [herr] at hgone
    simp only [probeGone, decide_eq_true_eq] at hgone
    simp [hgone]

/-- No IAM call is a delete-stack call. -/
theorem filter_isDeleteStack_of_isIam (evs : List Event) (h : ∀ ev ∈ evs, ev.isIam = true) :
    evs.filter Event.isDeleteStack = [] := by
  rw [List.filter_eq_nil_iff]
  intro ev hev
  have := h ev hev
  cases ev <;> simp_all [Event.isIam, Event.isDeleteStack]

/-! ## The retain list -/

theorem retainResources_spec (summaries : List StackResourceSummary) (retain : List GoString)
    (h : retainResources summaries = some retain) :
    retain.map some =
      (summaries.filter (fun r => r.ResourceStatus ≠ ResourceStatus.DeleteComplete)).map
        (fun r => r.LogicalResourceId) := by
  induction summaries generalizing retain with
  | nil => simp [retainResources] at h; simp [← h]
  | cons r rest ih =>
    unfold retainResources at h
    split at h
    · rename_i hne
      split at h
      · simp at h
      · rename_i id hid
        cases hr : retainResources rest with
        | none => simp [hr] at h
        | some tl =>
          simp [hr] at h
          subst h
          simp [List.filter_cons, hne, hid, ih tl hr]
    · rename_i hne
      have : r.ResourceStatus = ResourceStatus.DeleteComplete := by simpa using hne
      simp [List.filter_cons, this, ih retain h]

theorem retainResources_mem (summaries : List StackResourceSummary) (retain : List GoString)
    (h : retainResources summaries = some retain) (id : GoString) (hid : id ∈ retain) :
    ∃ r ∈ summaries, r.LogicalResourceId = some id ∧
      r.ResourceStatus ≠ ResourceStatus.DeleteComplete := by
  have hs := retainResources_spec summaries retain h
  have hm : some id ∈ retain.map some := List.mem_map_of_mem _ hid
  rw [hs] at hm
  obtain ⟨r, hr, hrid⟩ := List.mem_map.1 hm
  rw [List.mem_filter] at hr
  exact ⟨r, hr.1, hrid, by simpa using hr.2⟩

/-- The attempt on a `DeleteFailed` stack whose children could be listed. -/
theorem doRemove_deleteFailed (cfs : CloudFormationStack) (P : Provider σ) (w : World σ)
    (stack : Stack) (rest : List Stack) (summaries : List StackResourceSummary)
    (hprobe : (svcDescribeStacks P cfs.stack.StackName w).1 = Except.ok (stack :: rest))
    (hstatus : stack.StackStatus = StackStatus.DeleteFailed)
    (hlist : (svcListStackResources P cfs.stack.StackName
      (svcDescribeStacks P cfs.stack.StackName w).2).1 = Except.ok summaries) :
    match retainResources summaries with
    | none => newCalls w (cfs.doRemove P w).2 =
        [Event.describeStacks cfs.stack.StackName, Event.listStackResources cfs.stack.StackName]
    | some retain =>
      newCalls w (cfs.doRemove P w).2 =
        [Event.describeStacks cfs.stack.StackName, Event.listStackResources cfs.stack.StackName,
          Event.deleteStack
            { StackName := cfs.stack.StackName, RetainResources := retain, RoleARN := cfs.deleteRoleArn }] ∨
      newCalls w (cfs.doRemove P w).2 =
        [Event.describeStacks cfs.stack.StackName, Event.listStackResources cfs.stack.StackName,
          Event.deleteStack
            { StackName := cfs.stack.StackName, RetainResources := retain, RoleARN := cfs.deleteRoleArn },
          Event.waitStackDeleteComplete cfs.stack.StackName MaxWaitTime] := by
  unfold doRemove
  simp only [hprobe, hstatus, hlist]
  simp only [reduceCtorEq, if_false, if_true]
  cases hr : retainResources summaries with
  | none =>
    simp only []
    apply newCalls_of_trace
    simp [svcListStackResources, svcDescribeStacks, World.call]
  | some retain =>
    simp only []
    split
    · left
      apply newCalls_of_trace
      simp [svcListStackResources, svcDescribeStacks, svcDeleteStack, World.call]
    · right
      apply newCalls_of_trace
      simp [svcListStackResources, svcDescribeStacks, svcDeleteStack, waitStackDeleteComplete,
        World.call]

end CloudFormationStack

/-! ## Lemmas on single attempts, provisioning and the indexed loop -/

namespace CloudFormationStack

/-- A failed attempt whose error does not carry the protection signature is retried with
the next index below the bound, and ends the loop with the exhausted-budget error at
the bound. -/
theorem removeWithAttempts_of_plain_fail (cfs : CloudFormationStack) (P : Provider σ)
    (w w1 : World σ) (err : GoError) (attempt : Int)
    (hd : cfs.doRemove P w = (Outcome.returned (some err), w1))
    (hsig : cfs.isTerminationProtection err = false) :
    cfs.removeWithAttempts P attempt w =
      if attempt ≥ cfs.maxDeleteAttempts then (Outcome.returned (some attemptsExhausted), w1)
      else cfs.removeWithAttempts P (attempt + 1) w1 := by
  have hn : cfs.negotiateProtection P err w1 = (none, w1) := by
    simp [negotiateProtection, hsig]
  exact removeWithAttempts_of_fail _ _ _ _ _ _ attempt hd hn

/-- The attempt on a stack in a status of the last branch of `doRemove`: the stabilization
step, then the delete-stack call, then the delete-complete wait, each only if the step
before returned nil. -/
theorem doRemove_of_other (cfs : CloudFormationStack) (P : Provider σ) (w : World σ)
    (stack : Stack) (rest : List Stack)
    (hprobe : (svcDescribeStacks P cfs.stack.StackName w).1 = Except.ok (stack :: rest))
    (h1 : stack.StackStatus ≠ StackStatus.DeleteComplete)
    (h2 : stack.StackStatus ≠ StackStatus.DeleteInProgress)
    (h3 : stack.StackStatus ≠ StackStatus.DeleteFailed) :
    cfs.doRemove P w =
      match (cfs.waitForStackToStabilize P stack.StackStatus
          (svcDescribeStacks P cfs.stack.StackName w).2).1 with
      | some err => (Outcome.returned (some err),
          (cfs.waitForStackToStabilize P stack.StackStatus
            (svcDescribeStacks P cfs.stack.StackName w).2).2)
      | none =>
        match (svcDeleteStack P { StackName := cfs.stack.StackName, RoleARN := cfs.deleteRoleArn }
            (cfs.waitForStackToStabilize P stack.StackStatus
              (svcDescribeStacks P cfs.stack.StackName w).2).2).1 with
        | some err => (Outcome.returned (some err),
            (svcDeleteStack P { StackName := cfs.stack.StackName, RoleARN := cfs.deleteRoleArn }
              (cfs.waitForStackToStabilize P stack.StackStatus
                (svcDescribeStacks P cfs.stack.StackName w).2).2).2)
        | none =>
          (Outcome.returned (waitStackDeleteComplete P cfs.stack.StackName MaxWaitTime
              (svcDeleteStack P { StackName := cfs.stack.StackName, RoleARN := cfs.deleteRoleArn }
                (cfs.waitForStackToStabilize P stack.StackStatus
                  (svcDescribeStacks P cfs.stack.StackName w).2).2).2).1,
            (waitStackDeleteComplete P cfs.stack.StackName MaxWaitTime
              (svcDeleteStack P { StackName := cfs.stack.StackName, RoleARN := cfs.deleteRoleArn }
                (cfs.waitForStackToStabilize P stack.StackStatus
                  (svcDescribeStacks P cfs.stack.StackName w).2).2).2).2) := by
  unfold doRemove
  simp only [hprobe, h1, h2, h3, if_false]
  cases hs : (cfs.waitForStackToStabilize P stack.StackStatus
      (svcDescribeStacks P cfs.stack.StackName w).2).1 with
  | some err => rfl
  | none =>
    simp only []
    cases hd : (svcDeleteStack P { StackName := cfs.stack.StackName, RoleARN := cfs.deleteRoleArn }
        (cfs.waitForStackToStabilize P stack.StackStatus
          (svcDescribeStacks P cfs.stack.StackName w).2).2).1 with
    | some err => rfl
    | none =>
      simp only []
      split <;> simp_all

theorem createRoleName_eq_spec (cfs : CloudFormationStack) :
    cfs.createRoleName = roleNameSpec cfs.stack.StackName := by
  have hp : ServiceRoleName ++ goStr "-" = goStr "nuke-service-role-CFS-" := by decide
  unfold createRoleName roleNameSpec
  simp only [hp]
  split
  · rfl
  · rename_i h
    rw [List.take_of_length_le (by omega)]

/-- The calls of provisioning: the lookup of the role name first; every create-role call
after it carries the same name. -/
theorem createServiceRoleArn_names (cfs : CloudFormationStack) (P : Provider σ) (w : World σ) :
    ∃ tail, newCalls w (cfs.createServiceRoleArn P w).2.2
        = Event.getRole cfs.createRoleName :: tail ∧
      ∀ input, Event.createRole input ∈ tail → input.RoleName = cfs.createRoleName := by
  unfold createServiceRoleArn
  simp only []
  split
  · exact ⟨[], newCalls_of_trace (by simp [iamGetRole, World.call]), by simp⟩
  · split
    · exact ⟨[Event.createRole cfs.createRoleParams],
        newCalls_of_trace (by simp [iamGetRole, iamCreateRole, World.call]),
        by simp [createRoleParams]⟩
    · split
      · exact ⟨[Event.createRole cfs.createRoleParams],
          newCalls_of_trace (by simp [iamGetRole, iamCreateRole, World.call]),
          by simp [createRoleParams]⟩
      · split
        · exact ⟨[Event.createRole cfs.createRoleParams],
            newCalls_of_trace (by simp [iamGetRole, iamCreateRole, World.call]),
            by simp [createRoleParams]⟩
        · split <;>
          exact ⟨[Event.createRole cfs.createRoleParams,
              Event.attachRolePolicy cfs.attachPolicyParams],
            newCalls_of_trace
              (by simp [iamGetRole, iamCreateRole, iamAttachRolePolicy, World.call]),
            by simp [createRoleParams]⟩

/-- The indexed loop computes the loop. -/
theorem removeWithAttemptsIndexed_fst (cfs : CloudFormationStack) (P : Provider σ)
    (attempt : Int) (w : World σ) :
    (cfs.removeWithAttemptsIndexed P attempt w).1 = cfs.removeWithAttempts P attempt w := by
  generalize h : (cfs.maxDeleteAttempts - attempt).toNat = k
  induction k generalizing attempt w with
  | zero =>
    rw [removeWithAttemptsIndexed, removeWithAttempts]
    simp only []
    split
    · rfl
    · rfl
    · split
      · rfl
      · split
        · rfl
        · omega
  | succ k ih =>
    rw [removeWithAttemptsIndexed, removeWithAttempts]
    simp only []
    split
    · rfl
    · rfl
    · split
      · rfl
      · split
        · rfl
        · exact ih _ _ (by omega)

/-- Every attempt of the loop started at `attempt` has an index from `attempt` on, and
an index other than `attempt` stays within the bound. -/
theorem removeWithAttemptsIndexed_bounds (cfs : CloudFormationStack) (P : Provider σ)
    (attempt : Int) (w : World σ) :
    ∀ entry ∈ (cfs.removeWithAttemptsIndexed P attempt w).2,
      attempt ≤ entry.1 ∧ (entry.1 ≤ cfs.maxDeleteAttempts ∨ entry.1 = attempt) := by
  generalize h : (cfs.maxDeleteAttempts - attempt).toNat = k
  induction k generalizing attempt w with
  | zero =>
    rw [removeWithAttemptsIndexed]
    simp only []
    split
    · simp
    · simp
    · split
      · simp
      · split
        · simp
        · omega
  | succ k ih =>
    rw [removeWithAttemptsIndexed]
    simp only []
    split
    · simp
    · simp
    · split
      · simp
      · split
        · simp
        · rename_i hlt
          intro entry hentry
          rcases List.mem_cons.1 hentry with heq | htail
          · subst heq
            simp
          · have := ih (attempt + 1) _ (by omega) entry htail
            omega

/-- When the loop has made an attempt at the bound that failed with an error without the
protection signature, its result is the exhausted-budget error. -/
theorem removeWithAttemptsIndexed_last (cfs : CloudFormationStack) (P : Provider σ)
    (attempt : Int) (w : World σ) (err : GoError)
    (hsig : cfs.isTerminationProtection err = false)
    (hmem : (cfs.maxDeleteAttempts, Outcome.returned (some err))
      ∈ (cfs.removeWithAttemptsIndexed P attempt w).2) :
    (cfs.removeWithAttempts P attempt w).1 = Outcome.returned (some attemptsExhausted) := by
  generalize h : (cfs.maxDeleteAttempts - attempt).toNat = k at hmem
  induction k generalizing attempt w with
  | zero =>
    rw [removeWithAttemptsIndexed] at hmem
    rw [removeWithAttempts]
    simp only [] at hmem ⊢
    split at hmem
    · rename_i hr; simp [hr] at hmem
    · rename_i hr; simp [hr] at hmem
    · rename_i e hr
      have he : e = err := by
        split at hmem
        · simp [hr] at hmem; exact hmem.2.symm
        · split at hmem
          · simp [hr] at hmem; exact hmem.2.symm
          · omega
      subst he
      have hn : cfs.negotiateProtection P e (cfs.doRemove P w).2 = (none, (cfs.doRemove P w).2) := by
        simp [negotiateProtection, hsig]
      simp only [hr, hn]
      rw [dif_pos (by omega)]
  | succ k ih =>
    rw [removeWithAttemptsIndexed] at hmem
    rw [removeWithAttempts]
    simp only [] at hmem ⊢
    split at hmem
    · rename_i hr; simp [hr] at hmem
    · rename_i hr; simp [hr] at hmem
    · rename_i e hr
      split at hmem
      · rename_i e2 hn
        have he : e = err := by simp [hr] at hmem; exact hmem.2.symm
        subst he
        have hn2 : cfs.negotiateProtection P e (cfs.doRemove P w).2
            = (none, (cfs.doRemove P w).2) := by
          simp [negotiateProtection, hsig]
        rw [hn2] at hn
        simp at hn
      · rename_i hn
        split at hmem
        · rename_i hge
          rw [dif_pos hge]
        · rename_i hlt
          rw [dif_neg hlt]
          rcases List.mem_cons.1 hmem with heq | htail
          · have : cfs.maxDeleteAttempts = attempt := by
              have := congrArg Prod.fst heq
              simpa using this
            omega
          · exact ih (attempt + 1) _ htail (by omega)

end CloudFormationStack

/-! ## Lemmas on the lister -/

namespace CloudFormationStackLister

/-- A stack is not nested exactly when its parent id is absent or empty. -/
theorem isNested_eq_false_iff (stack : Stack) :
    isNested stack = false ↔ stack.ParentId = none ∨ stack.ParentId = some [] := by
  unfold isNested
  cases h : stack.ParentId with
  | none => simp
  | some p => simp

/-- The loop on a provider whose pages end: with enough fuel it returns the resources
collected so far followed by the stacks of the remaining pages that are not nested. -/
theorem listLoop_of_paged (D : StackPager σ) (token : Option GoString) (s s1 : σ)
    (pages : List (List Stack)) (hp : Paged D token s pages s1) :
    ∀ (fuel : Nat) (resources : List CloudFormationStack), pages.length ≤ fuel →
      listLoop D fuel token resources s =
        some (Except.ok (resources ++
          (pages.flatten.filter (fun stack => !isNested stack)).map newResource), s1) := by
  induction hp with
  | last token s page h =>
    intro fuel resources hfuel
    cases fuel with
    | zero => simp at hfuel
    | succ fuel => simp [listLoop, h]
  | more token s s1 page next pages h rest ih =>
    intro fuel resources hfuel
    cases fuel with
    | zero => simp at hfuel
    | succ fuel =>
      have hf : pages.length ≤ fuel := by simpa using hfuel
      simp [listLoop, h, ih fuel _ hf]

end CloudFormationStackLister

/-! ## Lemmas on the calls of an attempt, by branch -/

namespace CloudFormationStack

theorem waitForStackToStabilize_no_list (cfs : CloudFormationStack) (P : Provider σ)
    (status : StackStatus) {w w1 : World σ}
    (h : Grows (fun ev => !ev.isListStackResources) w w1) :
    Grows (fun ev => !ev.isListStackResources) w (cfs.waitForStackToStabilize P status w1).2 := by
  unfold waitForStackToStabilize
  split
  · exact h.step _ _ rfl
  · exact h.step _ _ rfl
  · exact h.step _ _ rfl
  · exact h.step _ _ rfl
  · exact h.step _ _ rfl
  · exact h

/-- An attempt whose probe does not show `DeleteFailed` issues no list call. -/
theorem doRemove_no_list (cfs : CloudFormationStack) (P : Provider σ) (w : World σ)
    (hnot : ∀ stack rest,
      (svcDescribeStacks P cfs.stack.StackName w).1 = Except.ok (stack :: rest) →
      stack.StackStatus ≠ StackStatus.DeleteFailed) :
    Grows (fun ev => !ev.isListStackResources) w (cfs.doRemove P w).2 := by
  have h0 : Grows (fun ev => !ev.isListStackResources) w
      (svcDescribeStacks P cfs.stack.StackName w).2 :=
    (Grows.refl _ w).step _ _ rfl
  unfold doRemove
  simp only []
  split
  · split <;> exact h0
  · exact h0
  · rename_i stack rest hprobe
    have hne := hnot stack rest hprobe
    simp only [hne, if_false]
    repeat' split
    all_goals
      repeat' first
        | exact h0
        | rfl
        | apply waitForStackToStabilize_no_list
        | apply Grows.step

/-- The calls of an attempt on a stack in a status of the last branch of `doRemove`,
once the stabilization step returned nil: the probe, the stabilization calls, the
delete-stack call without retain list, and the delete-complete wait if the delete-stack
call returned nil. -/
theorem doRemove_other_calls (cfs : CloudFormationStack) (P : Provider σ) (w : World σ)
    (stack : Stack) (rest : List Stack)
    (hprobe : (svcDescribeStacks P cfs.stack.StackName w).1 = Except.ok (stack :: rest))
    (h1 : stack.StackStatus ≠ StackStatus.DeleteComplete)
    (h2 : stack.StackStatus ≠ StackStatus.DeleteInProgress)
    (h3 : stack.StackStatus ≠ StackStatus.DeleteFailed)
    (hs : (cfs.waitForStackToStabilize P stack.StackStatus
      (svcDescribeStacks P cfs.stack.StackName w).2).1 = none) :
    newCalls w (cfs.doRemove P w).2 =
      Event.describeStacks cfs.stack.StackName ::
        (stabilizeCalls cfs (stabilizeActionSpec stack.StackStatus) ++
          Event.deleteStack { StackName := cfs.stack.StackName, RoleARN := cfs.deleteRoleArn } ::
            (if (svcDeleteStack P { StackName := cfs.stack.StackName, RoleARN := cfs.deleteRoleArn }
                (cfs.waitForStackToStabilize P stack.StackStatus
                  (svcDescribeStacks P cfs.stack.StackName w).2).2).1 = none
              then [Event.waitStackDeleteComplete cfs.stack.StackName MaxWaitTime] else [])) := by
  have hdo := doRemove_of_other cfs P w stack rest hprobe h1 h2 h3
  have hst : (cfs.waitForStackToStabilize P stack.StackStatus
      (svcDescribeStacks P cfs.stack.StackName w).2).2.trace =
      w.trace ++ Event.describeStacks cfs.stack.StackName ::
        stabilizeCalls cfs (stabilizeActionSpec stack.StackStatus) := by
    have hc : ∀ w0 : World σ, (cfs.waitForStackToStabilize P stack.StackStatus w0).2.trace =
        w0.trace ++ stabilizeCalls cfs (stabilizeActionSpec stack.StackStatus) := by
      intro w0
      cases stack.StackStatus <;>
        simp [waitForStackToStabilize, stabilizeCalls, stabilizeActionSpec,
          waitStackUpdateComplete, waitStackCreateComplete, World.call]
    rw [hc]
    simp [svcDescribeStacks, World.call]
  rw [hdo, hs]
  simp only []
  cases hd : (svcDeleteStack P { StackName := cfs.stack.StackName, RoleARN := cfs.deleteRoleArn }
      (cfs.waitForStackToStabilize P stack.StackStatus
        (svcDescribeStacks P cfs.stack.StackName w).2).2).1 with
  | some err =>
    apply newCalls_of_trace
    simp [svcDeleteStack, World.call, hst]
  | none =>
    apply newCalls_of_trace
    simp [svcDeleteStack, waitStackDeleteComplete, World.call, hst]

/-- The calls of an attempt on a `DeleteFailed` stack whose children were listed and all
carry an id: the probe, the list call, the delete-stack call with the retain list, and
the delete-complete wait if the delete-stack call returned nil. -/
theorem doRemove_failed_calls (cfs : CloudFormationStack) (P : Provider σ) (w : World σ)
    (stack : Stack) (rest : List Stack) (summaries : List StackResourceSummary)
    (retain : List GoString)
    (hprobe : (svcDescribeStacks P cfs.stack.StackName w).1 = Except.ok (stack :: rest))
    (hstatus : stack.StackStatus = StackStatus.DeleteFailed)
    (hlist : (svcListStackResources P cfs.stack.StackName
      (svcDescribeStacks P cfs.stack.StackName w).2).1 = Except.ok summaries)
    (hretain : retainResources summaries = some retain) :
    newCalls w (cfs.doRemove P w).2 =
      [Event.describeStacks cfs.stack.StackName, Event.listStackResources cfs.stack.StackName,
        Event.deleteStack
          { StackName := cfs.stack.StackName, RetainResources := retain, RoleARN := cfs.deleteRoleArn }] ++
        (if (svcDeleteStack P
              { StackName := cfs.stack.StackName, RetainResources := retain, RoleARN := cfs.deleteRoleArn }
              (svcListStackResources P cfs.stack.StackName
                (svcDescribeStacks P cfs.stack.StackName w).2).2).1 = none
          then [Event.waitStackDeleteComplete cfs.stack.StackName MaxWaitTime] else []) := by
  unfold doRemove
  simp only [hprobe, hstatus, hlist, hretain]
  simp only [reduceCtorEq, if_false, if_true]
  cases hd : (svcDeleteStack P
      { StackName := cfs.stack.StackName, RetainResources := retain, RoleARN := cfs.deleteRoleArn }
      (svcListStackResources P cfs.stack.StackName
        (svcDescribeStacks P cfs.stack.StackName w).2).2).1 with
  | some err =>
    apply newCalls_of_trace
    simp [svcListStackResources, svcDescribeStacks, svcDeleteStack, World.call]
  | none =>
    apply newCalls_of_trace
    simp [svcListStackResources, svcDescribeStacks, svcDeleteStack, waitStackDeleteComplete,
      World.call]

end CloudFormationStack

/-! ## Lemmas on the network firewall and the IAM filters -/

namespace NetworkFirewall

end NetworkFirewall

/-- The loops never return nil: what they return is an error or a panic. -/
theorem tagsLoop_ne_nil (matchString : GoString → GoString → Bool) (value : GoString)
    (tags : List IAMTag) : tagsLoop matchString value tags ≠ some (Outcome.returned none) := by
  induction tags with
  | nil => simp [tagsLoop]
  | cons tag tags ih =>
    unfold tagsLoop
    repeat' split
    all_goals first
      | exact ih
      | simp

theorem customFiltersLoop_ne_nil (matchString : GoString → GoString → Bool)
    (path : Option GoString) (tags : List IAMTag) (filters : List CustomFilters) :
    customFiltersLoop matchString path tags filters ≠ some (Outcome.returned none) := by
  induction filters with
  | nil => simp [customFiltersLoop]
  | cons filter filters ih =>
    unfold customFiltersLoop
    repeat' split
    all_goals first
      | exact ih
      | (rename_i h; rw [← h]; exact tagsLoop_ne_nil _ _ _)
      | simp

/-- When the loop of the attachment ends without a return, the method does not return,
whatever the depth allowed. -/
theorem attachment_filter_diverges (r : IAMRolePolicyAttachment)
    (matchString : GoString → GoString → Bool)
    (hloop : customFiltersLoop matchString r.role.Path r.role.Tags r.CustomFilters = none)
    (fuel : Nat) : r.FilterbyCustomFilters matchString fuel = none := by
  induction fuel with
  | zero => rfl
  | succ fuel ih =>
    unfold IAMRolePolicyAttachment.FilterbyCustomFilters
    simp [hloop, ih]

/-- The method of the attachment never returns nil. -/
theorem attachment_filter_ne_nil (r : IAMRolePolicyAttachment)
    (matchString : GoString → GoString → Bool) (fuel : Nat) :
    r.FilterbyCustomFilters matchString fuel ≠ some (Outcome.returned none) := by
  induction fuel with
  | zero => simp [IAMRolePolicyAttachment.FilterbyCustomFilters]
  | succ fuel ih =>
    unfold IAMRolePolicyAttachment.FilterbyCustomFilters
    split
    · rename_i out h
      rw [← h]
      exact customFiltersLoop_ne_nil _ _ _ _
    · exact ih

theorem isPrefixOf_append_self (pre rest : GoString) : pre.isPrefixOf (pre ++ rest) = true := by
  induction pre with
  | nil => simp [List.isPrefixOf]
  | cons b pre ih => simp [List.isPrefixOf, ih]

/-! ## The protection test and the property bag -/

namespace CloudFormationStack

/-- The rendering of an operation error starts with `operation error `, and the message
the code compares it with starts with `Stack [`: the test never holds. -/
theorem isTerminationProtection_eq_false (cfs : CloudFormationStack) (err : GoError) :
    cfs.isTerminationProtection err = false := by
  unfold isTerminationProtection
  cases err.operationError with
  | none => rfl
  | some re =>
    simp only [beq_eq_false_iff_ne, ne_eq]
    intro heq
    have h := congrArg List.head? heq
    have h1 : goStr "operation error " = 111 :: (goStr "peration error ") := by decide
    have h2 : goStr "Stack [" = 83 :: (goStr "tack [") := by decide
    simp [OperationError.Error, terminationProtectionMessage, h1, h2] at h

/-- The protection block lets every failed attempt fall through, without a call. -/
theorem negotiateProtection_eq (cfs : CloudFormationStack) (P : Provider σ) (err : GoError)
    (w : World σ) : cfs.negotiateProtection P err w = (none, w) := by
  simp [negotiateProtection, isTerminationProtection_eq_false]

theorem doRemove_no_toggle (cfs : CloudFormationStack) (P : Provider σ) (w : World σ) :
    Grows (fun ev => !ev.isUpdateTerminationProtection) w (cfs.doRemove P w).2 := by
  obtain ⟨evs, ht, hall⟩ := doRemove_steps cfs P w
  refine ⟨Event.describeStacks cfs.stack.StackName :: evs, ?_, ?_⟩
  · rw [ht]; simp [svcDescribeStacks, World.call]
  · intro ev hev
    rcases List.mem_cons.1 hev with h | h
    · subst h; rfl
    · have := hall ev h
      simp [Event.isAttemptStep] at this
      simp [this]

/-- The attempt loop issues no protection toggle. -/
theorem removeWithAttempts_no_toggle (cfs : CloudFormationStack) (P : Provider σ)
    (attempt : Int) (w : World σ) :
    Grows (fun ev => !ev.isUpdateTerminationProtection) w
      (cfs.removeWithAttempts P attempt w).2 := by
  generalize h : (cfs.maxDeleteAttempts - attempt).toNat = k
  induction k generalizing attempt w with
  | zero =>
    rw [removeWithAttempts]
    simp only [negotiateProtection_eq]
    split
    · exact doRemove_no_toggle cfs P w
    · exact doRemove_no_toggle cfs P w
    · split
      · exact doRemove_no_toggle cfs P w
      · omega
  | succ k ih =>
    rw [removeWithAttempts]
    simp only [negotiateProtection_eq]
    split
    · exact doRemove_no_toggle cfs P w
    · exact doRemove_no_toggle cfs P w
    · split
      · exact doRemove_no_toggle cfs P w
      · exact (doRemove_no_toggle cfs P w).trans (ih _ _ (by omega))

end CloudFormationStack

/-- The two reserved prefixes exclude each other. -/
theorem service_prefix_of_sso (rest : GoString) :
    (goStr "/aws-service-role/").isPrefixOf (goStr "/aws-reserved/sso.amazonaws.com/" ++ rest)
      = false := rfl

namespace PropertyBag

/-- A key behind `tag:` is none of the three keys `Properties` sets itself. -/
theorem tag_key_ne (keyStr : GoString) :
    goStr "tag:" ++ keyStr ≠ goStr "Name" ∧ goStr "tag:" ++ keyStr ≠ goStr "CreationTime" ∧
    goStr "tag:" ++ keyStr ≠ goStr "LastUpdatedTime" := by
  have h : goStr "tag:" = [116, 97, 103, 58] := by decide
  have h1 : goStr "Name" = 78 :: goStr "ame" := by decide
  have h2 : goStr "CreationTime" = 67 :: goStr "reationTime" := by decide
  have h3 : goStr "LastUpdatedTime" = 76 :: goStr "astUpdatedTime" := by decide
  rw [h, h1, h2, h3]
  refine ⟨?_, ?_, ?_⟩ <;> simp

/-- What one `SetTag` does to the entry of a key. -/
theorem get_SetTag (trimSpace : GoString → GoString) (p : PropertyBag)
    (tagKey tagValue : Option GoString) (key : GoString) :
    (p.SetTag trimSpace tagKey tagValue).get key =
      match tagKey, tagValue with
      | some k, some v =>
        if trimSpace k ≠ [] ∧ goStr "tag:" ++ trimSpace k = key then some v else p.get key
      | _, _ => p.get key := by
  cases tagKey with
  | none => rfl
  | some k =>
    cases tagValue with
    | none =>
      simp only [SetTag, Set]
      split <;> rfl
    | some v =>
      simp only [SetTag, Set]
      by_cases hk : trimSpace k = []
      · simp [hk]
      · by_cases he : goStr "tag:" ++ trimSpace k = key
        · simp [hk, he, get, lookup]
        · simp [hk, he, get, lookup]

/-- The tags leave the entry of a key alone that none of them sets. -/
theorem get_foldl_of_untouched (trimSpace : GoString → GoString) (tags : List Tag)
    (key : GoString) (p : PropertyBag)
    (h : ∀ tag ∈ tags, ∀ k v, tag.Key = some k → tag.Value = some v → trimSpace k ≠ [] →
      goStr "tag:" ++ trimSpace k ≠ key) :
    (tags.foldl (fun p tagValue => p.SetTag trimSpace tagValue.Key tagValue.Value) p).get key
      = p.get key := by
  induction tags generalizing p with
  | nil => rfl
  | cons tag rest ih =>
    rw [List.foldl_cons, ih _ (fun t ht => h t (List.mem_cons_of_mem _ ht)), get_SetTag]
    cases hk : tag.Key with
    | none => rfl
    | some k =>
      cases hv : tag.Value with
      | none => rfl
      | some v =>
        simp only []
        rw [if_neg]
        rintro ⟨h1, h2⟩
        exact h tag (List.mem_cons_self _ _) k v hk hv h1 h2

/-- Every entry of the bag after the tags was in the bag before or comes from a tag with
a value and a key that is not blank. -/
theorem get_foldl_origin (trimSpace : GoString → GoString) (tags : List Tag)
    (key value : GoString) (p : PropertyBag)
    (h : (tags.foldl (fun p tagValue => p.SetTag trimSpace tagValue.Key tagValue.Value) p).get
      key = some value) :
    p.get key = some value ∨
    ∃ tag ∈ tags, ∃ k, tag.Key = some k ∧ tag.Value = some value ∧ trimSpace k ≠ [] ∧
      key = goStr "tag:" ++ trimSpace k := by
  induction tags generalizing p with
  | nil => exact Or.inl h
  | cons tag rest ih =>
    rw [List.foldl_cons] at h
    rcases ih _ h with h1 | ⟨t, ht, k, hk, hv, hne, hkey⟩
    · rw [get_SetTag] at h1
      cases hk : tag.Key with
      | none => rw [hk] at h1; exact Or.inl h1
      | some k =>
        cases hv : tag.Value with
        | none => rw [hk, hv] at h1; exact Or.inl h1
        | some v =>
          rw [hk, hv] at h1
          simp only [] at h1
          split at h1
          · rename_i hc
            right
            refine ⟨tag, List.mem_cons_self _ _, k, hk, ?_, hc.1, hc.2.symm⟩
            rw [hv, h1]
          · exact Or.inl h1
    · exact Or.inr ⟨t, List.mem_cons_of_mem _ ht, k, hk, hv, hne, hkey⟩

end PropertyBag

/-! ## The claims -/

open CloudFormationStack Scenario

/-- C1 (code at the failing input). The handle has `maxDeleteAttempts = 3`, role management
is off and every attempt fails with `AccessDenied`, which does not carry the protection
signature. `Remove` returns the exhausted-budget error, but only after four attempts
(indices 0, 1, 2, 3): the trace holds four probes and four delete-stack calls. -/
theorem C1_remove_makes_four_attempts :
    (handle {}).maxDeleteAttempts = 3 ∧
    (handle {}).isTerminationProtection accessDenied = false ∧
    (handle {}).Remove deleteDenied start =
      (Outcome.returned (some (errorsNew "CFS might not be deleted after this run")), handle {},
        after [
          Event.describeStacks (goStr "app"), Event.deleteStack { StackName := goStr "app" },
          Event.describeStacks (goStr "app"), Event.deleteStack { StackName := goStr "app" },
          Event.describeStacks (goStr "app"), Event.deleteStack { StackName := goStr "app" },
          Event.describeStacks (goStr "app"), Event.deleteStack { StackName := goStr "app" }]) := by
  refine ⟨rfl, rfl, ?_⟩
  have hd : ∀ w : World Unit, (handle {}).doRemove deleteDenied w =
      (Outcome.returned (some accessDenied),
        after (w.trace ++ [Event.describeStacks (goStr "app"),
          Event.deleteStack { StackName := goStr "app" }])) := by
    intro w
    simp [doRemove, handle, deleteDenied, calm, svcDescribeStacks, svcDeleteStack, World.call,
      waitForStackToStabilize, after]
  rw [Remove_of_disabled _ _ _ rfl,
    removeWithAttempts_exhausts (handle {}) deleteDenied
      (fun w => after (w.trace ++ [Event.describeStacks (goStr "app"),
          Event.deleteStack { StackName := goStr "app" }]))
      (fun w => ⟨accessDenied, _, hd w, rfl⟩) 3 0 start rfl]
  rfl

/-- C2 (code at the failing input). Role management is on, no role exists, create-role
succeeds and attach-role-policy is refused. `Remove` returns the attachment error right
after the three provisioning calls: the role was created and no delete-role call is
issued. -/
theorem C2_attach_failure_leaves_role :
    (handle { EnableAutomaticRoleManagment := true }).Remove attachDenied start =
      (Outcome.returned (some accessDenied),
        { handle { EnableAutomaticRoleManagment := true } with
          deleteRoleArn := some (goStr "arn:aws:iam::1:role/nuke-service-role-CFS-app") },
        after [
          Event.getRole (goStr "nuke-service-role-CFS-app"),
          Event.createRole (handle {}).createRoleParams,
          Event.attachRolePolicy (handle {}).attachPolicyParams]) ∧
    ((handle { EnableAutomaticRoleManagment := true }).Remove attachDenied start).2.2.trace.filter
      Event.isDeleteRole = [] :=
  ⟨rfl, rfl⟩

/-- C3 (counterexample). Role management is on and the service role exists already: the
run ends in success with one lookup and one delete-role call, and no create-role call. -/
theorem C3_existing_role_is_not_created :
    (handle { EnableAutomaticRoleManagment := true }).Remove roleReady start =
      (Outcome.returned none, handle { EnableAutomaticRoleManagment := true },
        after [
          Event.getRole (goStr "nuke-service-role-CFS-app"),
          Event.describeStacks (goStr "app"),
          Event.deleteStack { StackName := goStr "app" },
          Event.waitStackDeleteComplete (goStr "app") MaxWaitTime,
          Event.deleteRole (goStr "nuke-service-role-CFS-app")]) ∧
    ((handle { EnableAutomaticRoleManagment := true }).Remove roleReady start).2.2.trace.filter
      Event.isCreateRole = [] := by
  have h : (handle { EnableAutomaticRoleManagment := true }).Remove roleReady start =
      (Outcome.returned none, handle { EnableAutomaticRoleManagment := true },
        after [
          Event.getRole (goStr "nuke-service-role-CFS-app"),
          Event.describeStacks (goStr "app"),
          Event.deleteStack { StackName := goStr "app" },
          Event.waitStackDeleteComplete (goStr "app") MaxWaitTime,
          Event.deleteRole (goStr "nuke-service-role-CFS-app")]) := by
    rw [Remove_of_enabled (handle { EnableAutomaticRoleManagment := true })
      (handle { EnableAutomaticRoleManagment := true }) roleReady start
      (after [Event.getRole (goStr "nuke-service-role-CFS-app")])
      (after [
          Event.getRole (goStr "nuke-service-role-CFS-app"),
          Event.describeStacks (goStr "app"),
          Event.deleteStack { StackName := goStr "app" },
          Event.waitStackDeleteComplete (goStr "app") MaxWaitTime])
      none rfl rfl (removeWithAttempts_of_ok _ _ _ _ 0 rfl)]
    rfl
  exact ⟨h, by rw [h]; rfl⟩

/-- C3 (amended). With role management on, in every run of `Remove` in which provisioning
returns nil and the attempt loop returns (with success or with any error), the calls are:
the role lookup, followed by one create-role call and one attachment exactly when the
lookup found no role; then the calls of the loop, none of them an IAM call; then exactly
one delete-role call, the last call of the run. -/
theorem C3_role_lifecycle (cfs cfs1 : CloudFormationStack) (P : Provider σ)
    (w w1 w2 : World σ) (err : Option GoError)
    (hen : cfs.settings.EnableAutomaticRoleManagment = true)
    (hp : cfs.createServiceRoleArn P w = (Outcome.returned none, cfs1, w1))
    (hl : cfs1.removeWithAttempts P 0 w1 = (Outcome.returned err, w2)) :
    ∃ loop : List Event,
      newCalls w (cfs.Remove P w).2.2 =
        (if roleExists (iamGetRole P cfs.createRoleName w).1 then
          [Event.getRole cfs.createRoleName]
        else
          [Event.getRole cfs.createRoleName, Event.createRole cfs.createRoleParams,
            Event.attachRolePolicy cfs.attachPolicyParams])
        ++ loop ++ [Event.deleteRole cfs.deleteRoleName] ∧
      newCalls w1 w2 = loop ∧
      ∀ ev ∈ loop, ev.isIam = false := by
  obtain ⟨loop, hloop, hall⟩ := removeWithAttempts_grows cfs1 P 0 w1
  rw [hl] at hloop
  have hstack : cfs1.stack = cfs.stack := by
    have := (createServiceRoleArn_stack cfs P w).1
    rw [hp] at this; exact this
  refine ⟨loop, ?_, newCalls_of_trace hloop, ?_⟩
  · apply newCalls_of_trace
    rw [Remove_of_enabled _ _ _ _ _ _ _ hen hp hl]
    simp only [deleteServiceRoleArn, iamDeleteRole, World.call, deleteRoleName, hstack]
    rw [hloop, createServiceRoleArn_calls _ _ _ _ _ hp]
    simp
  · intro ev hev
    simpa using hall ev hev

/-- C3 (witness): the run on the calm provider, where no role exists and the stack is
deleted at the first attempt. -/
theorem C3_role_lifecycle_witness :
    (handle { EnableAutomaticRoleManagment := true }).createServiceRoleArn calm start =
      (Outcome.returned none,
        { handle { EnableAutomaticRoleManagment := true } with
          deleteRoleArn := some (goStr "arn:aws:iam::1:role/nuke-service-role-CFS-app") },
        after [Event.getRole (goStr "nuke-service-role-CFS-app"),
          Event.createRole (handle {}).createRoleParams,
          Event.attachRolePolicy (handle {}).attachPolicyParams]) ∧
    ∃ loop : List Event,
      newCalls start ((handle { EnableAutomaticRoleManagment := true }).Remove calm start).2.2 =
        [Event.getRole (goStr "nuke-service-role-CFS-app"),
          Event.createRole (handle {}).createRoleParams,
          Event.attachRolePolicy (handle {}).attachPolicyParams]
        ++ loop ++ [Event.deleteRole (goStr "nuke-service-role-CFS-app")] ∧
      newCalls
        (after [Event.getRole (goStr "nuke-service-role-CFS-app"),
          Event.createRole (handle {}).createRoleParams,
          Event.attachRolePolicy (handle {}).attachPolicyParams])
        (after [Event.getRole (goStr "nuke-service-role-CFS-app"),
          Event.createRole (handle {}).createRoleParams,
          Event.attachRolePolicy (handle {}).attachPolicyParams,
          Event.describeStacks (goStr "app"),
          Event.deleteStack
            { StackName := goStr "app", RoleARN := some (goStr "arn:aws:iam::1:role/nuke-service-role-CFS-app") },
          Event.waitStackDeleteComplete (goStr "app") MaxWaitTime]) = loop ∧
      ∀ ev ∈ loop, ev.isIam = false :=
  ⟨rfl,
    C3_role_lifecycle (handle { EnableAutomaticRoleManagment := true })
      { handle { EnableAutomaticRoleManagment := true } with
        deleteRoleArn := some (goStr "arn:aws:iam::1:role/nuke-service-role-CFS-app") }
      calm start _ _ none rfl rfl (removeWithAttempts_of_ok _ _ _ _ 0 rfl)⟩

/-- C4. With role management on, when provisioning returned nil and the attempt loop
returned (nil or an error), a failing delete-role call makes `Remove` return the
delete-role error, also when the loop returned nil. -/
theorem C4_teardown_failure_is_returned (cfs cfs1 : CloudFormationStack) (P : Provider σ)
    (w w1 w2 : World σ) (err : Option GoError) (delErr : GoError)
    (hen : cfs.settings.EnableAutomaticRoleManagment = true)
    (hp : cfs.createServiceRoleArn P w = (Outcome.returned none, cfs1, w1))
    (hl : cfs1.removeWithAttempts P 0 w1 = (Outcome.returned err, w2))
    (hd : (cfs1.deleteServiceRoleArn P w2).1 = some delErr) :
    (cfs.Remove P w).1 = Outcome.returned (some delErr) := by
  rw [Remove_of_enabled _ _ _ _ _ _ _ hen hp hl, hd]

/-- C4 (witness): the stack is deleted at the first attempt and the role deletion is
refused; `Remove` returns the refusal. -/
theorem C4_teardown_failure_is_returned_witness :
    (handle { EnableAutomaticRoleManagment := true }).removeWithAttempts teardownDenied 0
        (after [Event.getRole (goStr "nuke-service-role-CFS-app"),
          Event.createRole (handle {}).createRoleParams,
          Event.attachRolePolicy (handle {}).attachPolicyParams])
      = (Outcome.returned none,
        after [Event.getRole (goStr "nuke-service-role-CFS-app"),
          Event.createRole (handle {}).createRoleParams,
          Event.attachRolePolicy (handle {}).attachPolicyParams,
          Event.describeStacks (goStr "app"),
          Event.deleteStack { StackName := goStr "app" },
          Event.waitStackDeleteComplete (goStr "app") MaxWaitTime]) ∧
    ((handle { EnableAutomaticRoleManagment := true }).Remove teardownDenied start).1
      = Outcome.returned (some roleInUse) :=
  ⟨removeWithAttempts_of_ok _ _ _ _ 0 rfl,
    C4_teardown_failure_is_returned (handle { EnableAutomaticRoleManagment := true })
      { handle { EnableAutomaticRoleManagment := true } with
        deleteRoleArn := some (goStr "arn:aws:iam::1:role/nuke-service-role-CFS-app") }
      teardownDenied start _ _ none roleInUse rfl rfl
      (removeWithAttempts_of_ok _ _ _ _ 0 rfl) rfl⟩

/-- C5. With role management on and no role found by the lookup, when the create-role
call fails, or succeeds and the attach-role-policy call fails, `Remove` returns that
error, and the calls of the run are the lookup, the creation and, in the second case, the
attachment: no describe-stacks, delete-stack or waiter call is issued. -/
theorem C5_provisioning_failure_aborts (cfs : CloudFormationStack) (P : Provider σ)
    (w : World σ) (e : GoError)
    (hen : cfs.settings.EnableAutomaticRoleManagment = true)
    (hget : roleExists (iamGetRole P cfs.createRoleName w).1 = false)
    (hfail :
      (iamCreateRole P cfs.createRoleParams (iamGetRole P cfs.createRoleName w).2).1
        = Except.error e ∨
      ∃ role arn,
        (iamCreateRole P cfs.createRoleParams (iamGetRole P cfs.createRoleName w).2).1
          = Except.ok { Role := some role } ∧
        role.Arn = some arn ∧
        (iamAttachRolePolicy P cfs.attachPolicyParams
          (iamCreateRole P cfs.createRoleParams (iamGetRole P cfs.createRoleName w).2).2).1
          = some e) :
    (cfs.Remove P w).1 = Outcome.returned (some e) ∧
    (newCalls w (cfs.Remove P w).2.2 =
        [Event.getRole cfs.createRoleName, Event.createRole cfs.createRoleParams] ∨
      newCalls w (cfs.Remove P w).2.2 =
        [Event.getRole cfs.createRoleName, Event.createRole cfs.createRoleParams,
          Event.attachRolePolicy cfs.attachPolicyParams]) ∧
    (newCalls w (cfs.Remove P w).2.2).filter
      (fun ev => ev.isDescribeStacks || ev.isDeleteStack || ev.isWait) = [] := by
  have key : (cfs.Remove P w).1 = Outcome.returned (some e) ∧
      (newCalls w (cfs.Remove P w).2.2 =
          [Event.getRole cfs.createRoleName, Event.createRole cfs.createRoleParams] ∨
        newCalls w (cfs.Remove P w).2.2 =
          [Event.getRole cfs.createRoleName, Event.createRole cfs.createRoleParams,
            Event.attachRolePolicy cfs.attachPolicyParams]) := by
    rcases hfail with hc | ⟨role, arn, hc, harn, ha⟩
    · have hp : cfs.createServiceRoleArn P w = (Outcome.returned (some e), cfs,
          (iamCreateRole P cfs.createRoleParams (iamGetRole P cfs.createRoleName w).2).2) := by
        unfold createServiceRoleArn
        simp [hget, hc]
      rw [Remove_of_provisioning_failed _ _ _ _ _ _ hen hp]
      refine ⟨rfl, Or.inl ?_⟩
      apply newCalls_of_trace
      simp [iamCreateRole, iamGetRole, World.call]
    · have hp : cfs.createServiceRoleArn P w = (Outcome.returned (some e),
          { cfs with deleteRoleArn := some arn },
          (iamAttachRolePolicy P cfs.attachPolicyParams
            (iamCreateRole P cfs.createRoleParams (iamGetRole P cfs.createRoleName w).2).2).2) := by
        unfold createServiceRoleArn
        simp [hget, hc, harn, ha]
      rw [Remove_of_provisioning_failed _ _ _ _ _ _ hen hp]
      refine ⟨rfl, Or.inr ?_⟩
      apply newCalls_of_trace
      simp [iamCreateRole, iamGetRole, iamAttachRolePolicy, World.call]
  refine ⟨key.1, key.2, ?_⟩
  rcases key.2 with h | h <;> rw [h] <;> rfl

/-- C5 (witness): the role creation is refused. -/
theorem C5_provisioning_failure_aborts_witness :
    roleExists (iamGetRole createDenied
      (handle { EnableAutomaticRoleManagment := true }).createRoleName start).1 = false ∧
    ((handle { EnableAutomaticRoleManagment := true }).Remove createDenied start).1
      = Outcome.returned (some accessDenied) ∧
    (newCalls start ((handle { EnableAutomaticRoleManagment := true }).Remove createDenied start).2.2).filter
      (fun ev => ev.isDescribeStacks || ev.isDeleteStack || ev.isWait) = [] :=
  ⟨rfl,
    (C5_provisioning_failure_aborts (handle { EnableAutomaticRoleManagment := true })
      createDenied start accessDenied rfl rfl (Or.inl rfl)).1,
    (C5_provisioning_failure_aborts (handle { EnableAutomaticRoleManagment := true })
      createDenied start accessDenied rfl rfl (Or.inl rfl)).2.2⟩

/-- C6. When the probe shows `DeleteFailed` and the children could be listed, every
delete-stack call of the attempt carries as retain list, in listing order, the logical ids
of exactly the listed children whose status is not `DeleteComplete`; every id in it is the
id of such a listed child; and for the children `[a: DeleteComplete, b: CreateComplete]`
the attempt issues exactly one delete-stack call, with retain list `[b]`. -/
theorem C6_retain_list (cfs : CloudFormationStack) (P : Provider σ) (w : World σ)
    (stack : Stack) (rest : List Stack) (summaries : List StackResourceSummary)
    (hprobe : (svcDescribeStacks P cfs.stack.StackName w).1 = Except.ok (stack :: rest))
    (hstatus : stack.StackStatus = StackStatus.DeleteFailed)
    (hlist : (svcListStackResources P cfs.stack.StackName
      (svcDescribeStacks P cfs.stack.StackName w).2).1 = Except.ok summaries) :
    (∀ input, Event.deleteStack input ∈ newCalls w (cfs.doRemove P w).2 →
      input.RetainResources.map some =
        (summaries.filter (fun r => r.ResourceStatus ≠ ResourceStatus.DeleteComplete)).map
          (fun r => r.LogicalResourceId) ∧
      ∀ id ∈ input.RetainResources, ∃ r ∈ summaries, r.LogicalResourceId = some id ∧
        r.ResourceStatus ≠ ResourceStatus.DeleteComplete) ∧
    (∀ a b : GoString,
      summaries = [{ LogicalResourceId := some a, ResourceStatus := ResourceStatus.DeleteComplete },
        { LogicalResourceId := some b, ResourceStatus := ResourceStatus.CreateComplete }] →
      (newCalls w (cfs.doRemove P w).2).filter Event.isDeleteStack =
        [Event.deleteStack { StackName := cfs.stack.StackName, RetainResources := [b], RoleARN := cfs.deleteRoleArn }]) := by
  have key := doRemove_deleteFailed cfs P w stack rest summaries hprobe hstatus hlist
  constructor
  · intro input hin
    cases hr : retainResources summaries with
    | none =>
      rw [hr] at key
      simp only [] at key
      rw [key] at hin
      simp at hin
    | some retain =>
      rw [hr] at key
      simp only [] at key
      have hinput : input = { StackName := cfs.stack.StackName, RetainResources := retain, RoleARN := cfs.deleteRoleArn } := by
        rcases key with key | key <;> rw [key] at hin <;> simpa using hin
      subst hinput
      exact ⟨retainResources_spec summaries retain hr, retainResources_mem summaries retain hr⟩
  · intro a b hs
    subst hs
    have hr : retainResources
        [{ LogicalResourceId := some a, ResourceStatus := ResourceStatus.DeleteComplete },
         { LogicalResourceId := some b, ResourceStatus := ResourceStatus.CreateComplete }]
        = some [b] := by
      simp [retainResources]
    rw [hr] at key
    simp only [] at key
    rcases key with key | key <;> rw [key] <;> simp [Event.isDeleteStack]

/-- C6 (witness): the `DeleteFailed` stack with the children `A` (deleted) and `B`. -/
theorem C6_retain_list_witness :
    (svcDescribeStacks deleteFailed (handle {}).stack.StackName start).1
      = Except.ok [{ StackName := goStr "app", StackStatus := StackStatus.DeleteFailed }] ∧
    (newCalls start ((handle {}).doRemove deleteFailed start).2).filter Event.isDeleteStack =
      [Event.deleteStack { StackName := goStr "app", RetainResources := [goStr "B"] }] :=
  ⟨rfl,
    (C6_retain_list (handle {}) deleteFailed start
      { StackName := goStr "app", StackStatus := StackStatus.DeleteFailed } []
      [{ LogicalResourceId := some (goStr "A"), ResourceStatus := ResourceStatus.DeleteComplete },
        { LogicalResourceId := some (goStr "B"), ResourceStatus := ResourceStatus.CreateComplete }]
      rfl rfl rfl).2 (goStr "A") (goStr "B") rfl⟩

/-- C7 (counterexample). Role management is on, the probe answers not-found and the role
deletion is refused: `Remove` returns the delete-role error, not success. -/
theorem C7_gone_stack_teardown_error :
    probeGone (svcDescribeStacks goneTeardownDenied (goStr "app")
      (after [Event.getRole (goStr "nuke-service-role-CFS-app"),
        Event.createRole (handle {}).createRoleParams,
        Event.attachRolePolicy (handle {}).attachPolicyParams])).1 = true ∧
    (handle { EnableAutomaticRoleManagment := true }).Remove goneTeardownDenied start =
      (Outcome.returned (some roleInUse),
        { handle { EnableAutomaticRoleManagment := true } with
          deleteRoleArn := some (goStr "arn:aws:iam::1:role/nuke-service-role-CFS-app") },
        after [Event.getRole (goStr "nuke-service-role-CFS-app"),
          Event.createRole (handle {}).createRoleParams,
          Event.attachRolePolicy (handle {}).attachPolicyParams,
          Event.describeStacks (goStr "app"),
          Event.deleteRole (goStr "nuke-service-role-CFS-app")]) := by
  refine ⟨rfl, ?_⟩
  rw [Remove_of_enabled (handle { EnableAutomaticRoleManagment := true })
    { handle { EnableAutomaticRoleManagment := true } with
      deleteRoleArn := some (goStr "arn:aws:iam::1:role/nuke-service-role-CFS-app") }
    goneTeardownDenied start _ _ none rfl rfl (removeWithAttempts_of_ok _ _ _ _ 0 rfl)]
  rfl

/-- C7 (amended). When the probe of the first attempt answers not-found (an operation
error) or shows `DeleteComplete`, the attempt loop returns success after that single probe
call. `Remove` then issues no delete-stack call; it returns success when role management
is off, and when role management is on it returns the result of the delete-role call
(success exactly when the role deletion succeeds). -/
theorem C7_gone_stack (cfs : CloudFormationStack) (P : Provider σ) (w : World σ)
    (hgone : probeGone (svcDescribeStacks P cfs.stack.StackName w).1 = true) :
    (∀ attempt, cfs.removeWithAttempts P attempt w =
      (Outcome.returned none, (svcDescribeStacks P cfs.stack.StackName w).2)) ∧
    newCalls w (svcDescribeStacks P cfs.stack.StackName w).2
      = [Event.describeStacks cfs.stack.StackName] ∧
    (cfs.settings.EnableAutomaticRoleManagment = false →
      cfs.Remove P w =
        (Outcome.returned none, cfs, (svcDescribeStacks P cfs.stack.StackName w).2)) ∧
    (∀ (cfs0 : CloudFormationStack) (w0 : World σ),
      cfs0.settings.EnableAutomaticRoleManagment = true →
      cfs0.createServiceRoleArn P w0 = (Outcome.returned none, cfs, w) →
      cfs0.Remove P w0 =
        (Outcome.returned
          (cfs.deleteServiceRoleArn P (svcDescribeStacks P cfs.stack.StackName w).2).1,
          cfs,
          (cfs.deleteServiceRoleArn P (svcDescribeStacks P cfs.stack.StackName w).2).2) ∧
      (newCalls w0 (cfs0.Remove P w0).2.2).filter Event.isDeleteStack = []) := by
  have hloop : ∀ attempt, cfs.removeWithAttempts P attempt w =
      (Outcome.returned none, (svcDescribeStacks P cfs.stack.StackName w).2) :=
    fun attempt => removeWithAttempts_of_ok _ _ _ _ attempt (doRemove_of_gone cfs P w hgone)
  refine ⟨hloop, ?_, ?_, ?_⟩
  · apply newCalls_of_trace
    simp [svcDescribeStacks, World.call]
  · intro hen
    rw [Remove_of_disabled _ _ _ hen, hloop 0]
  · intro cfs0 w0 hen hp
    have hrem := Remove_of_enabled _ _ _ _ _ _ _ hen hp (hloop 0)
    have hres : cfs0.Remove P w0 =
        (Outcome.returned
          (cfs.deleteServiceRoleArn P (svcDescribeStacks P cfs.stack.StackName w).2).1,
          cfs,
          (cfs.deleteServiceRoleArn P (svcDescribeStacks P cfs.stack.StackName w).2).2) := by
      rw [hrem]
      cases (cfs.deleteServiceRoleArn P (svcDescribeStacks P cfs.stack.StackName w).2).1 <;> rfl
    refine ⟨hres, ?_⟩
    obtain ⟨pre, hpre, hall⟩ := createServiceRoleArn_grows cfs0 P w0
    rw [hp] at hpre
    have hpre2 : w.trace = w0.trace ++ pre := hpre
    have htrace : (cfs0.Remove P w0).2.2.trace = w0.trace ++
        (pre ++ [Event.describeStacks cfs.stack.StackName, Event.deleteRole cfs.deleteRoleName]) := by
      rw [hres]
      simp [deleteServiceRoleArn, iamDeleteRole, svcDescribeStacks, World.call, hpre2]
    rw [newCalls_of_trace htrace, List.filter_append,
      filter_isDeleteStack_of_isIam pre hall]
    rfl

/-- C7 (witness): role management off, the probe answers not-found. -/
theorem C7_gone_stack_witness :
    probeGone (svcDescribeStacks gone (handle {}).stack.StackName start).1 = true ∧
    (handle {}).Remove gone start =
      (Outcome.returned none, handle {},
        (svcDescribeStacks gone (handle {}).stack.StackName start).2) :=
  ⟨rfl, (C7_gone_stack (handle {}) gone start rfl).2.2.1 rfl⟩

/-- C8 (code at the failing input). Role management is off, `DisableDeletionProtection`
is false, and every delete-stack call on the stack `app` is refused because termination
protection is enabled, with the operation error the SDK client returns. `re.Error()`
renders that error as `operation error CloudFormation: DeleteStack, ...`, which is not
the message `Stack [app] cannot be deleted while TerminationProtection is enabled` the
code compares it with: the protection block is skipped. `Remove` does not return the
protection error after one attempt; it makes four attempts and returns the
exhausted-budget error. -/
theorem C8_protection_failure_is_retried :
    protectionBlocked.operationError.map OperationError.Error =
      some (goStr "operation error CloudFormation: DeleteStack, https response error StatusCode: 400, RequestID: 7e2a, api error ValidationError: Stack [app] cannot be deleted while TerminationProtection is enabled") ∧
    (handle {}).terminationProtectionMessage =
      goStr "Stack [app] cannot be deleted while TerminationProtection is enabled" ∧
    (handle {}).isTerminationProtection protectionBlocked = false ∧
    (handle {}).settings.DisableDeletionProtection = false ∧
    (handle {}).doRemove protectedStack start =
      (Outcome.returned (some protectionBlocked),
        after [Event.describeStacks (goStr "app"),
          Event.deleteStack { StackName := goStr "app" }]) ∧
    (handle {}).Remove protectedStack start =
      (Outcome.returned (some attemptsExhausted), handle {},
        after [
          Event.describeStacks (goStr "app"), Event.deleteStack { StackName := goStr "app" },
          Event.describeStacks (goStr "app"), Event.deleteStack { StackName := goStr "app" },
          Event.describeStacks (goStr "app"), Event.deleteStack { StackName := goStr "app" },
          Event.describeStacks (goStr "app"), Event.deleteStack { StackName := goStr "app" }]) := by
  refine ⟨rfl, rfl, rfl, rfl, rfl, ?_⟩
  have hd : ∀ w : World Unit, (handle {}).doRemove protectedStack w =
      (Outcome.returned (some protectionBlocked),
        after (w.trace ++ [Event.describeStacks (goStr "app"),
          Event.deleteStack { StackName := goStr "app" }])) := by
    intro w
    simp [doRemove, handle, protectedStack, calm, svcDescribeStacks, svcDeleteStack, World.call,
      waitForStackToStabilize, after]
  rw [Remove_of_disabled _ _ _ rfl,
    removeWithAttempts_exhausts (handle {}) protectedStack
      (fun w => after (w.trace ++ [Event.describeStacks (goStr "app"),
          Event.deleteStack { StackName := goStr "app" }]))
      (fun w => ⟨protectionBlocked, _, hd w, negotiateProtection_eq _ _ _ _⟩) 3 0 start rfl]
  rfl

/-- C9 (code at the failing input). `DisableDeletionProtection` is true and every
delete-stack call on the stack `app` is refused because termination protection is
enabled, with the operation error the SDK client returns. The test of the protection
block holds for no error at all (the rendering of an operation error starts with
`operation error`), so the attempt loop issues no `UpdateTerminationProtection` call on
any provider; on this one `Remove` makes its four attempts without a toggle and returns
the exhausted-budget error, the protection still enabled. -/
theorem C9_protection_is_never_toggled :
    (∀ (cfs : CloudFormationStack) (err : GoError), cfs.isTerminationProtection err = false) ∧
    (∀ (τ : Type) (cfs : CloudFormationStack) (P : Provider τ) (attempt : Int) (w : World τ),
      (newCalls w (cfs.removeWithAttempts P attempt w).2).filter
        Event.isUpdateTerminationProtection = []) ∧
    (handle { DisableDeletionProtection := true }).settings.DisableDeletionProtection = true ∧
    (handle { DisableDeletionProtection := true }).Remove protectedStack start =
      (Outcome.returned (some attemptsExhausted), handle { DisableDeletionProtection := true },
        after [
          Event.describeStacks (goStr "app"), Event.deleteStack { StackName := goStr "app" },
          Event.describeStacks (goStr "app"), Event.deleteStack { StackName := goStr "app" },
          Event.describeStacks (goStr "app"), Event.deleteStack { StackName := goStr "app" },
          Event.describeStacks (goStr "app"), Event.deleteStack { StackName := goStr "app" }]) := by
  refine ⟨isTerminationProtection_eq_false, ?_, rfl, ?_⟩
  · intro τ cfs P attempt w
    obtain ⟨evs, ht, hall⟩ := removeWithAttempts_no_toggle cfs P attempt w
    rw [newCalls_of_trace ht, List.filter_eq_nil_iff]
    intro ev hev
    simpa using hall ev hev
  · have hd : ∀ w : World Unit,
        (handle { DisableDeletionProtection := true }).doRemove protectedStack w =
        (Outcome.returned (some protectionBlocked),
          after (w.trace ++ [Event.describeStacks (goStr "app"),
            Event.deleteStack { StackName := goStr "app" }])) := by
      intro w
      simp [doRemove, handle, protectedStack, calm, svcDescribeStacks, svcDeleteStack,
        World.call, waitForStackToStabilize, after]
    rw [Remove_of_disabled _ _ _ rfl,
      removeWithAttempts_exhausts (handle { DisableDeletionProtection := true }) protectedStack
        (fun w => after (w.trace ++ [Event.describeStacks (goStr "app"),
            Event.deleteStack { StackName := goStr "app" }]))
        (fun w => ⟨protectionBlocked, _, hd w, negotiateProtection_eq _ _ _ _⟩) 3 0 start rfl]
    rfl

/-- C10 (counterexample). The stack stays in `DeleteInProgress` and every delete-complete
wait times out. The loop does not return the waiter's error after the first attempt: it
makes the attempts with index 1, 2 and 3 as well and returns the exhausted-budget
error. -/
theorem C10_failed_wait_is_retried :
    (handle {}).Remove deleting start =
      (Outcome.returned (some attemptsExhausted), handle {},
        after [
          Event.describeStacks (goStr "app"),
          Event.waitStackDeleteComplete (goStr "app") MaxWaitTime,
          Event.describeStacks (goStr "app"),
          Event.waitStackDeleteComplete (goStr "app") MaxWaitTime,
          Event.describeStacks (goStr "app"),
          Event.waitStackDeleteComplete (goStr "app") MaxWaitTime,
          Event.describeStacks (goStr "app"),
          Event.waitStackDeleteComplete (goStr "app") MaxWaitTime]) ∧
    attemptsExhausted ≠ waitTimedOut := by
  have hd : ∀ w : World Unit, (handle {}).doRemove deleting w =
      (Outcome.returned (some waitTimedOut),
        after (w.trace ++ [Event.describeStacks (goStr "app"),
          Event.waitStackDeleteComplete (goStr "app") MaxWaitTime])) := by
    intro w
    simp [doRemove, handle, deleting, calm, svcDescribeStacks, waitStackDeleteComplete,
      World.call, after]
  refine ⟨?_, by decide⟩
  rw [Remove_of_disabled _ _ _ rfl,
    removeWithAttempts_exhausts (handle {}) deleting
      (fun w => after (w.trace ++ [Event.describeStacks (goStr "app"),
          Event.waitStackDeleteComplete (goStr "app") MaxWaitTime]))
      (fun w => ⟨waitTimedOut, _, hd w, rfl⟩) 3 0 start rfl]
  rfl

/-- C10 (amended). When the probe shows `DeleteInProgress`, the attempt issues the probe
and one delete-complete wait, no delete-stack call, and its result is the result of the
wait. A failed wait is handled like any other failed attempt: when its error does not
carry the protection signature, the loop makes the attempt with the next index if the
index is below `maxDeleteAttempts`, and returns the exhausted-budget error otherwise. -/
theorem C10_delete_in_progress (cfs : CloudFormationStack) (P : Provider σ) (w : World σ)
    (stack : Stack) (rest : List Stack)
    (hprobe : (svcDescribeStacks P cfs.stack.StackName w).1 = Except.ok (stack :: rest))
    (hstatus : stack.StackStatus = StackStatus.DeleteInProgress) :
    cfs.doRemove P w =
      (Outcome.returned (waitStackDeleteComplete P cfs.stack.StackName MaxWaitTime
          (svcDescribeStacks P cfs.stack.StackName w).2).1,
        (waitStackDeleteComplete P cfs.stack.StackName MaxWaitTime
          (svcDescribeStacks P cfs.stack.StackName w).2).2) ∧
    newCalls w (cfs.doRemove P w).2 =
      [Event.describeStacks cfs.stack.StackName,
        Event.waitStackDeleteComplete cfs.stack.StackName MaxWaitTime] ∧
    ∀ (err : GoError) (attempt : Int),
      (waitStackDeleteComplete P cfs.stack.StackName MaxWaitTime
        (svcDescribeStacks P cfs.stack.StackName w).2).1 = some err →
      cfs.isTerminationProtection err = false →
      cfs.removeWithAttempts P attempt w =
        if attempt ≥ cfs.maxDeleteAttempts then
          (Outcome.returned (some attemptsExhausted), (cfs.doRemove P w).2)
        else cfs.removeWithAttempts P (attempt + 1) (cfs.doRemove P w).2 := by
  have hdo : cfs.doRemove P w =
      (Outcome.returned (waitStackDeleteComplete P cfs.stack.StackName MaxWaitTime
          (svcDescribeStacks P cfs.stack.StackName w).2).1,
        (waitStackDeleteComplete P cfs.stack.StackName MaxWaitTime
          (svcDescribeStacks P cfs.stack.StackName w).2).2) := by
    unfold doRemove
    simp [hprobe, hstatus]
  refine ⟨hdo, ?_, ?_⟩
  · apply newCalls_of_trace
    rw [hdo]
    simp [waitStackDeleteComplete, svcDescribeStacks, World.call]
  · intro err attempt hwait hsig
    have hd : cfs.doRemove P w = (Outcome.returned (some err), (cfs.doRemove P w).2) := by
      rw [hdo, hwait]
    have hn : cfs.negotiateProtection P err (cfs.doRemove P w).2
        = (none, (cfs.doRemove P w).2) := by
      simp [negotiateProtection, hsig]
    exact removeWithAttempts_of_fail _ _ _ _ _ _ attempt hd hn

/-- C10 (witness): the stack is in `DeleteInProgress` and the wait times out at the first
attempt (index 0); the attempt with index 1 follows. -/
theorem C10_delete_in_progress_witness :
    (svcDescribeStacks deleting (handle {}).stack.StackName start).1
      = Except.ok [{ StackName := goStr "app", StackStatus := StackStatus.DeleteInProgress }] ∧
    (handle {}).removeWithAttempts deleting 0 start =
      (handle {}).removeWithAttempts deleting (0 + 1)
        (after [Event.describeStacks (goStr "app"),
          Event.waitStackDeleteComplete (goStr "app") MaxWaitTime]) :=
  ⟨rfl,
    ((C10_delete_in_progress (handle {}) deleting start
      { StackName := goStr "app", StackStatus := StackStatus.DeleteInProgress } [] rfl rfl).2.2
      waitTimedOut 0 rfl rfl).trans (if_neg (by decide))⟩

open CloudFormationStackLister

/-- C11. When the probe shows `UpdateInProgress`, the first two calls of the attempt are
the probe and the update-complete wait, so that every delete-stack call of the attempt
comes after that wait has returned; and when that wait fails, the attempt returns its
error and these two calls are all its calls: no delete-stack call is issued. -/
theorem C11_update_wait_before_delete (cfs : CloudFormationStack) (P : Provider σ)
    (w : World σ) (stack : Stack) (rest : List Stack)
    (hprobe : (svcDescribeStacks P cfs.stack.StackName w).1 = Except.ok (stack :: rest))
    (hstatus : stack.StackStatus = StackStatus.UpdateInProgress) :
    (∃ tail, newCalls w (cfs.doRemove P w).2 =
      [Event.describeStacks cfs.stack.StackName,
        Event.waitStackUpdateComplete cfs.stack.StackName MaxWaitTime] ++ tail) ∧
    (∀ err, (waitStackUpdateComplete P cfs.stack.StackName MaxWaitTime
        (svcDescribeStacks P cfs.stack.StackName w).2).1 = some err →
      (cfs.doRemove P w).1 = Outcome.returned (some err) ∧
      newCalls w (cfs.doRemove P w).2 =
        [Event.describeStacks cfs.stack.StackName,
          Event.waitStackUpdateComplete cfs.stack.StackName MaxWaitTime] ∧
      (newCalls w (cfs.doRemove P w).2).filter Event.isDeleteStack = []) := by
  have hdo := doRemove_of_other cfs P w stack rest hprobe (by rw [hstatus]; decide)
    (by rw [hstatus]; decide) (by rw [hstatus]; decide)
  have hst : cfs.waitForStackToStabilize P stack.StackStatus
      (svcDescribeStacks P cfs.stack.StackName w).2 =
      waitStackUpdateComplete P cfs.stack.StackName MaxWaitTime
        (svcDescribeStacks P cfs.stack.StackName w).2 := by
    rw [hstatus]; rfl
  rw [hst] at hdo
  have hfail : ∀ err, (waitStackUpdateComplete P cfs.stack.StackName MaxWaitTime
        (svcDescribeStacks P cfs.stack.StackName w).2).1 = some err →
      (cfs.doRemove P w).1 = Outcome.returned (some err) ∧
      newCalls w (cfs.doRemove P w).2 =
        [Event.describeStacks cfs.stack.StackName,
          Event.waitStackUpdateComplete cfs.stack.StackName MaxWaitTime] := by
    intro err herr
    rw [hdo, herr]
    refine ⟨rfl, ?_⟩
    apply newCalls_of_trace
    simp [waitStackUpdateComplete, svcDescribeStacks, World.call]
  refine ⟨?_, ?_⟩
  · cases hwait : (waitStackUpdateComplete P cfs.stack.StackName MaxWaitTime
        (svcDescribeStacks P cfs.stack.StackName w).2).1 with
    | some err => exact ⟨[], by simpa using (hfail err hwait).2⟩
    | none =>
      rw [hdo, hwait]
      simp only []
      split
      · refine ⟨[Event.deleteStack
          { StackName := cfs.stack.StackName, RoleARN := cfs.deleteRoleArn }], ?_⟩
        apply newCalls_of_trace
        simp [svcDeleteStack, waitStackUpdateComplete, svcDescribeStacks, World.call]
      · refine ⟨[Event.deleteStack
          { StackName := cfs.stack.StackName, RoleARN := cfs.deleteRoleArn },
          Event.waitStackDeleteComplete cfs.stack.StackName MaxWaitTime], ?_⟩
        apply newCalls_of_trace
        simp [svcDeleteStack, waitStackDeleteComplete, waitStackUpdateComplete,
          svcDescribeStacks, World.call]
  · intro err herr
    obtain ⟨hr, hc⟩ := hfail err herr
    exact ⟨hr, hc, by rw [hc]; rfl⟩

/-- C11 (witness): the stack is in `UpdateInProgress` and the update-complete wait times
out; the attempt consists of the probe and the wait. -/
theorem C11_update_wait_before_delete_witness :
    (svcDescribeStacks updating (handle {}).stack.StackName start).1
      = Except.ok [{ StackName := goStr "app", StackStatus := StackStatus.UpdateInProgress }] ∧
    ((handle {}).doRemove updating start).1 = Outcome.returned (some waitTimedOut) ∧
    newCalls start ((handle {}).doRemove updating start).2 =
      [Event.describeStacks (goStr "app"),
        Event.waitStackUpdateComplete (goStr "app") MaxWaitTime] :=
  ⟨rfl,
    ((C11_update_wait_before_delete (handle {}) updating start
      { StackName := goStr "app", StackStatus := StackStatus.UpdateInProgress } [] rfl rfl).2
      waitTimedOut rfl).1,
    ((C11_update_wait_before_delete (handle {}) updating start
      { StackName := goStr "app", StackStatus := StackStatus.UpdateInProgress } [] rfl rfl).2
      waitTimedOut rfl).2.1⟩

/-- C12. For every status, `waitForStackToStabilize` does what the mapping of the
specification says: it is the create-complete wait for `CreateInProgress` and
`RollbackInProgress`, the update-complete wait for `UpdateInProgress`,
`UpdateRollbackInProgress` and `UpdateRollbackCompleteCleanupInProgress`, and for every
other status it returns nil in the unchanged world (`runStabilizeAction` on `nothing`); its calls
are that one wait, or none. -/
theorem C12_stabilize_mapping (cfs : CloudFormationStack) (P : Provider σ)
    (status : StackStatus) (w : World σ) :
    cfs.waitForStackToStabilize P status w =
      runStabilizeAction cfs P (stabilizeActionSpec status) w ∧
    newCalls w (cfs.waitForStackToStabilize P status w).2 =
      stabilizeCalls cfs (stabilizeActionSpec status) := by
  have h1 : cfs.waitForStackToStabilize P status w =
      runStabilizeAction cfs P (stabilizeActionSpec status) w := by
    cases status <;> rfl
  refine ⟨h1, ?_⟩
  rw [h1]
  cases hs : stabilizeActionSpec status
  · apply newCalls_of_trace
    simp [runStabilizeAction, stabilizeCalls, waitStackCreateComplete, World.call]
  · apply newCalls_of_trace
    simp [runStabilizeAction, stabilizeCalls, waitStackUpdateComplete, World.call]
  · apply newCalls_of_trace
    simp [runStabilizeAction, stabilizeCalls]

/-- C13. The role name of `createServiceRoleArn` is a function of the stack name alone:
the first 64 bytes of `nuke-service-role-CFS-` followed by the stack name, which is that
whole string when it has at most 64 bytes. Its length never exceeds 64. It is the name
the get-role lookup is issued with, the `RoleName` of the create-role input, and the
name of every create-role call of a provisioning. -/
theorem C13_role_name (cfs : CloudFormationStack) (P : Provider σ) (w : World σ) :
    cfs.createRoleName = roleNameSpec cfs.stack.StackName ∧
    cfs.createRoleName =
      (if (goStr "nuke-service-role-CFS-" ++ cfs.stack.StackName).length ≤ 64 then
        goStr "nuke-service-role-CFS-" ++ cfs.stack.StackName
      else (goStr "nuke-service-role-CFS-" ++ cfs.stack.StackName).take 64) ∧
    cfs.createRoleName.length ≤ 64 ∧
    cfs.createRoleParams.RoleName = roleNameSpec cfs.stack.StackName ∧
    ∃ tail, newCalls w (cfs.createServiceRoleArn P w).2.2
        = Event.getRole (roleNameSpec cfs.stack.StackName) :: tail ∧
      ∀ input, Event.createRole input ∈ tail →
        input.RoleName = roleNameSpec cfs.stack.StackName := by
  have hspec := createRoleName_eq_spec cfs
  refine ⟨hspec, ?_, ?_, ?_, ?_⟩
  · rw [hspec, roleNameSpec]
    split
    · rename_i h
      exact List.take_of_length_le h
    · rfl
  · rw [hspec, roleNameSpec, List.length_take]
    omega
  · rw [← hspec]; rfl
  · rw [← hspec]
    exact createServiceRoleArn_names cfs P w

/-- C14. When the get-role lookup finds a role of the derived name, `createServiceRoleArn`
returns nil with the handle unchanged (`deleteRoleArn` included), and the lookup is its
only call: no create-role and no attach-role-policy call is issued. -/
theorem C14_existing_role_is_ready (cfs : CloudFormationStack) (P : Provider σ) (w : World σ)
    (hfound : roleExists (iamGetRole P cfs.createRoleName w).1 = true) :
    cfs.createServiceRoleArn P w =
      (Outcome.returned none, cfs, (iamGetRole P cfs.createRoleName w).2) ∧
    (cfs.createServiceRoleArn P w).2.1.deleteRoleArn = cfs.deleteRoleArn ∧
    newCalls w (cfs.createServiceRoleArn P w).2.2 = [Event.getRole cfs.createRoleName] := by
  have h : cfs.createServiceRoleArn P w =
      (Outcome.returned none, cfs, (iamGetRole P cfs.createRoleName w).2) := by
    unfold createServiceRoleArn
    simp [hfound]
  refine ⟨h, by rw [h], ?_⟩
  rw [h]
  apply newCalls_of_trace
  simp [iamGetRole, World.call]

/-- C14 (witness): the role exists already. -/
theorem C14_existing_role_is_ready_witness :
    roleExists (iamGetRole roleReady
      (handle { EnableAutomaticRoleManagment := true }).createRoleName start).1 = true ∧
    (handle { EnableAutomaticRoleManagment := true }).createServiceRoleArn roleReady start =
      (Outcome.returned none, handle { EnableAutomaticRoleManagment := true },
        after [Event.getRole (goStr "nuke-service-role-CFS-app")]) :=
  ⟨rfl, (C14_existing_role_is_ready (handle { EnableAutomaticRoleManagment := true })
    roleReady start rfl).1⟩

/-- C15 (code at the failing input). The stack `app` exists and the probe is throttled:
describe-stacks fails with an operation error whose cause is `Throttling`, not a missing
stack. The attempt does not return that error: it returns nil after the probe, and
`Remove` reports the stack as removed without a delete-stack call. A probe error that is
no operation error is returned unmodified, as the claim says. -/
theorem C15_throttled_probe_is_success :
    (svcDescribeStacks probeThrottled (handle {}).stack.StackName start).1
      = Except.error describeThrottled ∧
    describeThrottled.text = goStr "operation error CloudFormation: DescribeStacks, https response error StatusCode: 400, RequestID: 9a41, api error Throttling: Rate exceeded" ∧
    (handle {}).doRemove probeThrottled start =
      (Outcome.returned none, after [Event.describeStacks (goStr "app")]) ∧
    (handle {}).Remove probeThrottled start =
      (Outcome.returned none, handle {}, after [Event.describeStacks (goStr "app")]) ∧
    (handle {}).doRemove probeBroken start =
      (Outcome.returned (some accessDenied), after [Event.describeStacks (goStr "app")]) := by
  refine ⟨rfl, rfl, rfl, ?_, rfl⟩
  rw [Remove_of_disabled _ _ _ rfl,
    removeWithAttempts_of_ok (handle {}) probeThrottled start
      (after [Event.describeStacks (goStr "app")]) 0 rfl]

/-- C16. With `EnableAutomaticRoleManagment` false, the result of `Remove` is the result
of the attempt loop started at index 0 in the same world, the handle is unchanged, and
none of the calls of the run is an IAM call. -/
theorem C16_role_management_off (cfs : CloudFormationStack) (P : Provider σ) (w : World σ)
    (hoff : cfs.settings.EnableAutomaticRoleManagment = false) :
    cfs.Remove P w =
      ((cfs.removeWithAttempts P 0 w).1, cfs, (cfs.removeWithAttempts P 0 w).2) ∧
    ∀ ev ∈ newCalls w (cfs.Remove P w).2.2, ev.isIam = false := by
  have h := Remove_of_disabled cfs P w hoff
  refine ⟨h, ?_⟩
  obtain ⟨evs, ht, hall⟩ := removeWithAttempts_grows cfs P 0 w
  rw [h, newCalls_of_trace ht]
  intro ev hev
  simpa using hall ev hev

/-- C16 (witness): the calm provider with role management off; the run is the attempt
loop alone. -/
theorem C16_role_management_off_witness :
    (handle {}).settings.EnableAutomaticRoleManagment = false ∧
    (handle {}).Remove calm start =
      (Outcome.returned none, handle {},
        after [Event.describeStacks (goStr "app"),
          Event.deleteStack { StackName := goStr "app" },
          Event.waitStackDeleteComplete (goStr "app") MaxWaitTime]) :=
  ⟨rfl, by
    rw [(C16_role_management_off (handle {}) calm start rfl).1,
      removeWithAttempts_of_ok (handle {}) calm start
        (after [Event.describeStacks (goStr "app"),
          Event.deleteStack { StackName := goStr "app" },
          Event.waitStackDeleteComplete (goStr "app") MaxWaitTime]) 0 rfl]⟩

/-- C17. When the pages of describe-stacks end (`Paged`), the lister, run for at least as
many rounds as there are pages, returns exactly the stacks of all pages that are not
nested, in page order, each as a handle with `maxDeleteAttempts = 3`. A stack is not
nested exactly when its parent id is absent or empty, so a stack with a non-empty
parent id is never returned and every other listed stack is. -/
theorem C17_lister_skips_nested (D : StackPager σ) (s s1 : σ) (pages : List (List Stack))
    (fuel : Nat) (hp : Paged D none s pages s1) (hfuel : pages.length ≤ fuel) :
    ListStacks D fuel s =
      some (Except.ok
        ((pages.flatten.filter (fun stack => !isNested stack)).map newResource), s1) ∧
    (∀ r ∈ (pages.flatten.filter (fun stack => !isNested stack)).map newResource,
      r.maxDeleteAttempts = 3 ∧ r.stack ∈ pages.flatten ∧
      (r.stack.ParentId = none ∨ r.stack.ParentId = some [])) ∧
    (∀ stack ∈ pages.flatten,
      (newResource stack ∈ (pages.flatten.filter (fun stack => !isNested stack)).map newResource
        ↔ (stack.ParentId = none ∨ stack.ParentId = some []))) := by
  refine ⟨?_, ?_, ?_⟩
  · have := listLoop_of_paged D none s s1 pages hp fuel [] hfuel
    simpa [ListStacks] using this
  · intro r hr
    obtain ⟨stack, hst, rfl⟩ := List.mem_map.1 hr
    rw [List.mem_filter] at hst
    refine ⟨rfl, hst.1, ?_⟩
    exact (isNested_eq_false_iff stack).1 (by simpa using hst.2)
  · intro stack hst
    constructor
    · intro hin
      obtain ⟨stack2, hst2, heq⟩ := List.mem_map.1 hin
      have : stack2 = stack := by
        have := congrArg CloudFormationStack.stack heq
        simpa [newResource] using this
      subst this
      rw [List.mem_filter] at hst2
      exact (isNested_eq_false_iff stack2).1 (by simpa using hst2.2)
    · intro hpar
      apply List.mem_map_of_mem
      rw [List.mem_filter]
      exact ⟨hst, by simpa using (isNested_eq_false_iff stack).2 hpar⟩

/-- C17 (witness): two pages; `root1` and `root2` (empty parent id) are returned, the
nested `child` is not. -/
theorem C17_lister_skips_nested_witness :
    ListStacks twoPages 2 () =
      some (Except.ok
        [{ stack := { StackName := goStr "root1" }, maxDeleteAttempts := 3 },
          { stack := { StackName := goStr "root2", ParentId := some [] }, maxDeleteAttempts := 3 }],
        ()) :=
  (C17_lister_skips_nested twoPages () ()
    [[{ StackName := goStr "root1" },
      { StackName := goStr "child", ParentId := some (goStr "root1") }],
     [{ StackName := goStr "root2", ParentId := some [] }]]
    2
    (Paged.more none () () _ (goStr "page2") _ rfl (Paged.last (some (goStr "page2")) () _ rfl))
    (by decide)).1

/-- C18 (counterexample). A stack with a tag `team` that has no value and a tag whose key
is one space: the bag of `Properties` holds `Name`, `CreationTime` and `LastUpdatedTime`
and nothing else; neither tag appears as a property. -/
theorem C18_tags_without_property :
    looseTags.stack.Tags =
      [{ Key := some (goStr "team"), Value := none },
        { Key := some (goStr " "), Value := some (goStr "x") }] ∧
    looseTags.Properties stamp trimAscii =
      { entries := [(goStr "LastUpdatedTime", goStr "2023-11-14T22:13:20Z"),
          (goStr "CreationTime", goStr "2023-11-14T22:13:20Z"),
          (goStr "Name", goStr "app")] } ∧
    (looseTags.Properties stamp trimAscii).get (goStr "tag:team") = none ∧
    (looseTags.Properties stamp trimAscii).get (goStr "tag: ") = none ∧
    (looseTags.Properties stamp trimAscii).get (goStr "tag:") = none := by
  refine ⟨rfl, ?_, ?_, ?_, ?_⟩ <;> decide

/-- C18 (amended). In the bag that `Properties` returns, `Name` is the stack name,
`CreationTime` is the rendered creation time, and `LastUpdatedTime` is the `CreationTime`
property when the stack has no last-updated time and the last-updated time in the same
rendering otherwise. A tag with a value and a key that is not blank appears as the
property of its trimmed key behind `tag:`, with its value, unless a later tag with a
value has the same trimmed key. The bag holds nothing else: a tag with a nil key, a blank
key or a nil value adds no property. -/
theorem C18_properties (cfs : CloudFormationStack) (rfc3339 : Int → GoString)
    (trimSpace : GoString → GoString) :
    (cfs.Properties rfc3339 trimSpace).get (goStr "Name") = some cfs.stack.StackName ∧
    (cfs.Properties rfc3339 trimSpace).get (goStr "CreationTime")
      = some (rfc3339 cfs.stack.CreationTime) ∧
    (cfs.Properties rfc3339 trimSpace).get (goStr "LastUpdatedTime") =
      (match cfs.stack.LastUpdatedTime with
        | none => (cfs.Properties rfc3339 trimSpace).get (goStr "CreationTime")
        | some t => some (rfc3339 t)) ∧
    (∀ (earlier later : List Tag) (tag : Tag) (k v : GoString),
      cfs.stack.Tags = earlier ++ tag :: later →
      tag.Key = some k → tag.Value = some v → trimSpace k ≠ [] →
      (∀ other ∈ later, ∀ k2 v2, other.Key = some k2 → other.Value = some v2 →
        trimSpace k2 ≠ trimSpace k) →
      (cfs.Properties rfc3339 trimSpace).get (goStr "tag:" ++ trimSpace k) = some v) ∧
    (∀ key value, (cfs.Properties rfc3339 trimSpace).get key = some value →
      key = goStr "Name" ∨ key = goStr "CreationTime" ∨ key = goStr "LastUpdatedTime" ∨
      ∃ tag ∈ cfs.stack.Tags, ∃ k, tag.Key = some k ∧ tag.Value = some value ∧
        trimSpace k ≠ [] ∧ key = goStr "tag:" ++ trimSpace k) := by
  have own : ∀ key, (key = goStr "Name" ∨ key = goStr "CreationTime" ∨
      key = goStr "LastUpdatedTime") → ∀ p : PropertyBag,
      (cfs.stack.Tags.foldl (fun p tagValue => p.SetTag trimSpace tagValue.Key tagValue.Value)
        p).get key = p.get key := by
    intro key hkey p
    apply PropertyBag.get_foldl_of_untouched
    intro tag _ k v _ _ _ heq
    have hne := PropertyBag.tag_key_ne (trimSpace k)
    rcases hkey with h | h | h
    · exact hne.1 (heq.trans h)
    · exact hne.2.1 (heq.trans h)
    · exact hne.2.2 (heq.trans h)
  have h1 : goStr "CreationTime" ≠ goStr "Name" := by decide
  have h2 : goStr "LastUpdatedTime" ≠ goStr "Name" := by decide
  have h4 : goStr "LastUpdatedTime" ≠ goStr "CreationTime" := by decide
  have hc : (cfs.Properties rfc3339 trimSpace).get (goStr "CreationTime")
      = some (rfc3339 cfs.stack.CreationTime) := by
    unfold Properties
    simp only []
    rw [own _ (Or.inr (Or.inl rfl))]
    cases cfs.stack.LastUpdatedTime <;>
      simp [PropertyBag.Set, PropertyBag.get, PropertyBag.lookup, PropertyBag.NewProperties, h4]
  refine ⟨?_, hc, ?_, ?_, ?_⟩
  · unfold Properties
    simp only []
    rw [own _ (Or.inl rfl)]
    cases cfs.stack.LastUpdatedTime <;>
      simp [PropertyBag.Set, PropertyBag.get, PropertyBag.lookup, PropertyBag.NewProperties,
        h1, h2]
  · rw [hc]
    unfold Properties
    simp only []
    rw [own _ (Or.inr (Or.inr rfl))]
    cases cfs.stack.LastUpdatedTime <;>
      simp [PropertyBag.Set, PropertyBag.get, PropertyBag.lookup, PropertyBag.NewProperties]
  · intro earlier later tag k v htags hk hv hne hlater
    unfold Properties
    simp only []
    rw [htags, List.foldl_append, List.foldl_cons,
      PropertyBag.get_foldl_of_untouched trimSpace later _ _
        (fun other ho k2 v2 hk2 hv2 _ heq =>
          hlater other ho k2 v2 hk2 hv2 (List.append_cancel_left heq)),
      PropertyBag.get_SetTag, hk, hv]
    simp [hne]
  · intro key value hget
    unfold Properties at hget
    simp only [] at hget
    rcases PropertyBag.get_foldl_origin trimSpace _ key value _ hget with h | h
    · revert h
      cases cfs.stack.LastUpdatedTime <;>
        simp only [PropertyBag.Set, PropertyBag.get, PropertyBag.lookup,
          PropertyBag.NewProperties] <;>
        intro h <;>
        (repeat' split at h) <;> simp_all
    · exact Or.inr (Or.inr (Or.inr h))

/-- C18 (witness): a stack that was never updated, with the one tag `team = infra`. -/
theorem C18_properties_witness :
    tagged.stack.Tags = [] ++ { Key := some (goStr "team"), Value := some (goStr "infra") } :: [] ∧
    trimAscii (goStr "team") = goStr "team" ∧
    (tagged.Properties stamp trimAscii).get (goStr "tag:team") = some (goStr "infra") ∧
    (tagged.Properties stamp trimAscii).get (goStr "LastUpdatedTime")
      = some (goStr "2023-11-14T22:13:20Z") ∧
    (tagged.Properties stamp trimAscii).get (goStr "Name") = some (goStr "app") :=
  ⟨rfl, by decide,
    (C18_properties tagged stamp trimAscii).2.2.2.1 [] []
      { Key := some (goStr "team"), Value := some (goStr "infra") } (goStr "team") (goStr "infra")
      rfl rfl rfl (by decide) (fun _ h => absurd h (List.not_mem_nil _)),
    by decide,
    (C18_properties tagged stamp trimAscii).1⟩

/-- C19 (counterexample). The stack stays in `UpdateInProgress` and every stabilization
wait times out. The loop does not return the waiter's error after the attempt with index
0: it makes the attempts with index 1, 2 and 3 as well, none of which issues a
delete-stack call, and returns the exhausted-budget error. -/
theorem C19_failed_stabilization_is_retried :
    (handle {}).Remove updating start =
      (Outcome.returned (some attemptsExhausted), handle {},
        after [
          Event.describeStacks (goStr "app"),
          Event.waitStackUpdateComplete (goStr "app") MaxWaitTime,
          Event.describeStacks (goStr "app"),
          Event.waitStackUpdateComplete (goStr "app") MaxWaitTime,
          Event.describeStacks (goStr "app"),
          Event.waitStackUpdateComplete (goStr "app") MaxWaitTime,
          Event.describeStacks (goStr "app"),
          Event.waitStackUpdateComplete (goStr "app") MaxWaitTime]) ∧
    attemptsExhausted ≠ waitTimedOut ∧
    ((handle {}).removeWithAttemptsIndexed updating 0 start).2 =
      [(0, Outcome.returned (some waitTimedOut)), (1, Outcome.returned (some waitTimedOut)),
        (2, Outcome.returned (some waitTimedOut)), (3, Outcome.returned (some waitTimedOut))] := by
  have hd : ∀ w : World Unit, (handle {}).doRemove updating w =
      (Outcome.returned (some waitTimedOut),
        after (w.trace ++ [Event.describeStacks (goStr "app"),
          Event.waitStackUpdateComplete (goStr "app") MaxWaitTime])) := by
    intro w
    simp [doRemove, handle, updating, calm, svcDescribeStacks, waitStackUpdateComplete,
      waitForStackToStabilize, World.call, after]
  have hn : ∀ w : World Unit,
      (handle {}).negotiateProtection updating waitTimedOut w = (none, w) := fun w => rfl
  refine ⟨?_, by decide, ?_⟩
  · rw [Remove_of_disabled _ _ _ rfl,
      removeWithAttempts_exhausts (handle {}) updating
        (fun w => after (w.trace ++ [Event.describeStacks (goStr "app"),
            Event.waitStackUpdateComplete (goStr "app") MaxWaitTime]))
        (fun w => ⟨waitTimedOut, _, hd w, rfl⟩) 3 0 start rfl]
    rfl
  · have hmax : (handle {}).maxDeleteAttempts = 3 := rfl
    rw [removeWithAttemptsIndexed]
    simp only [hd, hn, hmax]
    rw [dif_neg (by decide), removeWithAttemptsIndexed]
    simp only [hd, hn, hmax]
    rw [dif_neg (by decide), removeWithAttemptsIndexed]
    simp only [hd, hn, hmax]
    rw [dif_neg (by decide), removeWithAttemptsIndexed]
    simp only [hd, hn, hmax]
    rw [dif_pos (by decide)]
    rfl

/-- C19 (amended). For a stack whose probed status is none of `DeleteComplete`,
`DeleteInProgress`, `DeleteFailed`: a failure of the stabilization wait, and likewise a
failure of the delete-stack call after a successful stabilization, is the result of the
attempt; when its error does not carry the termination-protection signature, the loop
makes the attempt with the index incremented by one if the index is below
`maxDeleteAttempts`, and returns the exhausted-budget error if the index has reached
it. -/
theorem C19_wait_and_delete_failures (cfs : CloudFormationStack) (P : Provider σ)
    (w : World σ) (stack : Stack) (rest : List Stack) (err : GoError) (attempt : Int)
    (hprobe : (svcDescribeStacks P cfs.stack.StackName w).1 = Except.ok (stack :: rest))
    (h1 : stack.StackStatus ≠ StackStatus.DeleteComplete)
    (h2 : stack.StackStatus ≠ StackStatus.DeleteInProgress)
    (h3 : stack.StackStatus ≠ StackStatus.DeleteFailed)
    (hsig : cfs.isTerminationProtection err = false) :
    ((cfs.waitForStackToStabilize P stack.StackStatus
        (svcDescribeStacks P cfs.stack.StackName w).2).1 = some err →
      cfs.doRemove P w = (Outcome.returned (some err),
        (cfs.waitForStackToStabilize P stack.StackStatus
          (svcDescribeStacks P cfs.stack.StackName w).2).2) ∧
      cfs.removeWithAttempts P attempt w =
        if attempt ≥ cfs.maxDeleteAttempts then
          (Outcome.returned (some attemptsExhausted),
            (cfs.waitForStackToStabilize P stack.StackStatus
              (svcDescribeStacks P cfs.stack.StackName w).2).2)
        else
          cfs.removeWithAttempts P (attempt + 1)
            (cfs.waitForStackToStabilize P stack.StackStatus
              (svcDescribeStacks P cfs.stack.StackName w).2).2) ∧
    ((cfs.waitForStackToStabilize P stack.StackStatus
        (svcDescribeStacks P cfs.stack.StackName w).2).1 = none →
      (svcDeleteStack P { StackName := cfs.stack.StackName, RoleARN := cfs.deleteRoleArn }
        (cfs.waitForStackToStabilize P stack.StackStatus
          (svcDescribeStacks P cfs.stack.StackName w).2).2).1 = some err →
      cfs.doRemove P w = (Outcome.returned (some err),
        (svcDeleteStack P { StackName := cfs.stack.StackName, RoleARN := cfs.deleteRoleArn }
          (cfs.waitForStackToStabilize P stack.StackStatus
            (svcDescribeStacks P cfs.stack.StackName w).2).2).2) ∧
      cfs.removeWithAttempts P attempt w =
        if attempt ≥ cfs.maxDeleteAttempts then
          (Outcome.returned (some attemptsExhausted),
            (svcDeleteStack P { StackName := cfs.stack.StackName, RoleARN := cfs.deleteRoleArn }
              (cfs.waitForStackToStabilize P stack.StackStatus
                (svcDescribeStacks P cfs.stack.StackName w).2).2).2)
        else
          cfs.removeWithAttempts P (attempt + 1)
            (svcDeleteStack P { StackName := cfs.stack.StackName, RoleARN := cfs.deleteRoleArn }
              (cfs.waitForStackToStabilize P stack.StackStatus
                (svcDescribeStacks P cfs.stack.StackName w).2).2).2) := by
  have hdo := doRemove_of_other cfs P w stack rest hprobe h1 h2 h3
  constructor
  · intro hwait
    have hd : cfs.doRemove P w = (Outcome.returned (some err),
        (cfs.waitForStackToStabilize P stack.StackStatus
          (svcDescribeStacks P cfs.stack.StackName w).2).2) := by
      rw [hdo, hwait]
    exact ⟨hd, removeWithAttempts_of_plain_fail _ _ _ _ _ attempt hd hsig⟩
  · intro hwait hdel
    have hd : cfs.doRemove P w = (Outcome.returned (some err),
        (svcDeleteStack P { StackName := cfs.stack.StackName, RoleARN := cfs.deleteRoleArn }
          (cfs.waitForStackToStabilize P stack.StackStatus
            (svcDescribeStacks P cfs.stack.StackName w).2).2).2) := by
      rw [hdo, hwait]
      simp only []
      rw [hdel]
    exact ⟨hd, removeWithAttempts_of_plain_fail _ _ _ _ _ attempt hd hsig⟩

/-- C19 (witness): the stabilization wait of the attempt with index 0 times out, and the
attempt with index 1 follows. -/
theorem C19_wait_and_delete_failures_witness :
    (svcDescribeStacks updating (handle {}).stack.StackName start).1
      = Except.ok [{ StackName := goStr "app", StackStatus := StackStatus.UpdateInProgress }] ∧
    (handle {}).isTerminationProtection waitTimedOut = false ∧
    (handle {}).removeWithAttempts updating 0 start =
      (handle {}).removeWithAttempts updating (0 + 1)
        (after [Event.describeStacks (goStr "app"),
          Event.waitStackUpdateComplete (goStr "app") MaxWaitTime]) :=
  ⟨rfl, rfl,
    (((C19_wait_and_delete_failures (handle {}) updating start
      { StackName := goStr "app", StackStatus := StackStatus.UpdateInProgress } []
      waitTimedOut 0 rfl (by decide) (by decide) (by decide) rfl).1 rfl).2).trans
      (if_neg (by decide))⟩

/-- C20. In the attempt loop started at index 0 with `maxDeleteAttempts ≥ 0`, every
attempt made has an index between 0 and `maxDeleteAttempts`; and when the attempt with
index `maxDeleteAttempts` has failed with an error that does not carry the protection
signature, the loop returns an error (the exhausted-budget error), not success. The
attempts are those recorded by `removeWithAttemptsIndexed`, whose result is that of
`removeWithAttempts`. -/
theorem C20_attempt_index_bounded (cfs : CloudFormationStack) (P : Provider σ) (w : World σ)
    (hmax : 0 ≤ cfs.maxDeleteAttempts) :
    (cfs.removeWithAttemptsIndexed P 0 w).1 = cfs.removeWithAttempts P 0 w ∧
    (∀ entry ∈ (cfs.removeWithAttemptsIndexed P 0 w).2,
      0 ≤ entry.1 ∧ entry.1 ≤ cfs.maxDeleteAttempts) ∧
    (∀ err, cfs.isTerminationProtection err = false →
      (cfs.maxDeleteAttempts, Outcome.returned (some err))
        ∈ (cfs.removeWithAttemptsIndexed P 0 w).2 →
      (cfs.removeWithAttempts P 0 w).1 = Outcome.returned (some attemptsExhausted) ∧
      (cfs.removeWithAttempts P 0 w).1 ≠ Outcome.returned none) := by
  refine ⟨removeWithAttemptsIndexed_fst cfs P 0 w, ?_, ?_⟩
  · intro entry hentry
    have := removeWithAttemptsIndexed_bounds cfs P 0 w entry hentry
    omega
  · intro err hsig hmem
    have h := removeWithAttemptsIndexed_last cfs P 0 w err hsig hmem
    exact ⟨h, by rw [h]; simp⟩

/-- C20 (witness): every delete-stack call is refused with `AccessDenied`; the attempts
have the indices 0 to 3, and after the failed attempt with index 3 the loop returns the
exhausted-budget error. -/
theorem C20_attempt_index_bounded_witness :
    (0 : Int) ≤ (handle {}).maxDeleteAttempts ∧
    ((handle {}).removeWithAttemptsIndexed deleteDenied 0 start).2 =
      [(0, Outcome.returned (some accessDenied)), (1, Outcome.returned (some accessDenied)),
        (2, Outcome.returned (some accessDenied)), (3, Outcome.returned (some accessDenied))] ∧
    ((handle {}).removeWithAttempts deleteDenied 0 start).1
      = Outcome.returned (some attemptsExhausted) := by
  have hd : ∀ w : World Unit, (handle {}).doRemove deleteDenied w =
      (Outcome.returned (some accessDenied),
        after (w.trace ++ [Event.describeStacks (goStr "app"),
          Event.deleteStack { StackName := goStr "app" }])) := by
    intro w
    simp [doRemove, handle, deleteDenied, calm, svcDescribeStacks, svcDeleteStack, World.call,
      waitForStackToStabilize, after]
  have hn : ∀ w : World Unit,
      (handle {}).negotiateProtection deleteDenied accessDenied w = (none, w) := fun w => rfl
  have hmax : (handle {}).maxDeleteAttempts = 3 := rfl
  have hlog : ((handle {}).removeWithAttemptsIndexed deleteDenied 0 start).2 =
      [(0, Outcome.returned (some accessDenied)), (1, Outcome.returned (some accessDenied)),
        (2, Outcome.returned (some accessDenied)), (3, Outcome.returned (some accessDenied))] := by
    rw [removeWithAttemptsIndexed]
    simp only [hd, hn, hmax]
    rw [dif_neg (by decide), removeWithAttemptsIndexed]
    simp only [hd, hn, hmax]
    rw [dif_neg (by decide), removeWithAttemptsIndexed]
    simp only [hd, hn, hmax]
    rw [dif_neg (by decide), removeWithAttemptsIndexed]
    simp only [hd, hn, hmax]
    rw [dif_pos (by decide)]
    rfl
  exact ⟨by decide, hlog,
    ((C20_attempt_index_bounded (handle {}) deleteDenied start (by decide)).2.2 accessDenied rfl
      (by rw [hlog]; decide)).1⟩

/-- C21 (counterexample). The stack is `CreateComplete` and the delete-stack call is
refused: the attempt returns that error, and the delete-stack call is its last call; no
delete-complete wait follows it. -/
theorem C21_failed_delete_has_no_wait :
    (handle {}).doRemove deleteDenied start =
      (Outcome.returned (some accessDenied),
        after [Event.describeStacks (goStr "app"),
          Event.deleteStack { StackName := goStr "app" }]) ∧
    (newCalls start ((handle {}).doRemove deleteDenied start).2).filter Event.isWait = [] :=
  ⟨rfl, rfl⟩

/-- C21 (amended). A list-child-resources call is issued in an attempt only when the
probe of that attempt shows `DeleteFailed`. In the remaining branch (a status other than
`DeleteComplete`, `DeleteInProgress`, `DeleteFailed`, after a stabilization that returned
nil) the delete-stack call is issued without retain list; in the `DeleteFailed` branch
with the retain list. In both branches the delete-stack call carries the `deleteRoleArn`
of the handle, and it is followed by a delete-complete wait exactly when it returned
nil; when it failed it is the last call of the attempt. -/
theorem C21_calls_by_branch (cfs : CloudFormationStack) (P : Provider σ) (w : World σ)
    (stack : Stack) (rest : List Stack)
    (hprobe : (svcDescribeStacks P cfs.stack.StackName w).1 = Except.ok (stack :: rest)) :
    (∀ name, Event.listStackResources name ∈ newCalls w (cfs.doRemove P w).2 →
      stack.StackStatus = StackStatus.DeleteFailed) ∧
    (stack.StackStatus ≠ StackStatus.DeleteComplete →
      stack.StackStatus ≠ StackStatus.DeleteInProgress →
      stack.StackStatus ≠ StackStatus.DeleteFailed →
      (cfs.waitForStackToStabilize P stack.StackStatus
        (svcDescribeStacks P cfs.stack.StackName w).2).1 = none →
      newCalls w (cfs.doRemove P w).2 =
        Event.describeStacks cfs.stack.StackName ::
          (stabilizeCalls cfs (stabilizeActionSpec stack.StackStatus) ++
            Event.deleteStack { StackName := cfs.stack.StackName, RetainResources := [], RoleARN := cfs.deleteRoleArn } ::
              (if (svcDeleteStack P { StackName := cfs.stack.StackName, RoleARN := cfs.deleteRoleArn }
                  (cfs.waitForStackToStabilize P stack.StackStatus
                    (svcDescribeStacks P cfs.stack.StackName w).2).2).1 = none
                then [Event.waitStackDeleteComplete cfs.stack.StackName MaxWaitTime]
                else []))) ∧
    (∀ (summaries : List StackResourceSummary) (retain : List GoString),
      stack.StackStatus = StackStatus.DeleteFailed →
      (svcListStackResources P cfs.stack.StackName
        (svcDescribeStacks P cfs.stack.StackName w).2).1 = Except.ok summaries →
      retainResources summaries = some retain →
      newCalls w (cfs.doRemove P w).2 =
        [Event.describeStacks cfs.stack.StackName, Event.listStackResources cfs.stack.StackName,
          Event.deleteStack
            { StackName := cfs.stack.StackName, RetainResources := retain, RoleARN := cfs.deleteRoleArn }] ++
          (if (svcDeleteStack P
                { StackName := cfs.stack.StackName, RetainResources := retain, RoleARN := cfs.deleteRoleArn }
                (svcListStackResources P cfs.stack.StackName
                  (svcDescribeStacks P cfs.stack.StackName w).2).2).1 = none
            then [Event.waitStackDeleteComplete cfs.stack.StackName MaxWaitTime]
            else [])) := by
  refine ⟨?_, ?_, ?_⟩
  · intro name hmem
    by_contra hne
    have hnot : ∀ stack2 rest2,
        (svcDescribeStacks P cfs.stack.StackName w).1 = Except.ok (stack2 :: rest2) →
        stack2.StackStatus ≠ StackStatus.DeleteFailed := by
      intro stack2 rest2 h2
      rw [hprobe] at h2
      simp only [Except.ok.injEq, List.cons.injEq] at h2
      rw [← h2.1]
      exact hne
    obtain ⟨evs, ht, hall⟩ := doRemove_no_list cfs P w hnot
    rw [newCalls_of_trace ht] at hmem
    have := hall _ hmem
    simp [Event.isListStackResources] at this
  · intro h1 h2 h3 hs
    exact doRemove_other_calls cfs P w stack rest hprobe h1 h2 h3 hs
  · intro summaries retain hstatus hlist hretain
    exact doRemove_failed_calls cfs P w stack rest summaries retain hprobe hstatus hlist hretain

/-- C21 (witness): the calm provider, stack `CreateComplete`: probe, delete-stack without
retain list, delete-complete wait. -/
theorem C21_calls_by_branch_witness :
    (svcDescribeStacks calm (handle {}).stack.StackName start).1
      = Except.ok [{ StackName := goStr "app" }] ∧
    newCalls start ((handle {}).doRemove calm start).2 =
      [Event.describeStacks (goStr "app"),
        Event.deleteStack { StackName := goStr "app", RetainResources := [], RoleARN := none },
        Event.waitStackDeleteComplete (goStr "app") MaxWaitTime] :=
  ⟨rfl,
    (C21_calls_by_branch (handle {}) calm start { StackName := goStr "app" } [] rfl).2.1
      (by decide) (by decide) (by decide) rfl⟩

/-- C23 (code at the failing input). The stack name has 43 bytes, so that
`nuke-service-role-CFS-` followed by it has 65. `createServiceRoleArn` looks up and
creates the role under the first 64 bytes of that string, `deleteServiceRoleArn` deletes
the role named by all 65 bytes: in the run of `Remove` the delete-role call names another
role than the create-role call. -/
theorem C23_teardown_names_other_role :
    longHandle.stack.StackName.length = 43 ∧
    longHandle.createRoleName.length = 64 ∧
    longHandle.deleteRoleName.length = 65 ∧
    longHandle.createRoleName = longHandle.deleteRoleName.take 64 ∧
    longHandle.createRoleName ≠ longHandle.deleteRoleName ∧
    newCalls start (longHandle.Remove calm start).2.2 =
      [Event.getRole longHandle.createRoleName,
        Event.createRole longHandle.createRoleParams,
        Event.attachRolePolicy longHandle.attachPolicyParams,
        Event.describeStacks longHandle.stack.StackName,
        Event.deleteStack
          { StackName := longHandle.stack.StackName, RoleARN := some (goStr "arn:aws:iam::1:role/" ++ longHandle.createRoleName) },
        Event.waitStackDeleteComplete longHandle.stack.StackName MaxWaitTime,
        Event.deleteRole longHandle.deleteRoleName] ∧
    longHandle.createRoleParams.RoleName = longHandle.createRoleName := by
  refine ⟨by decide, by decide, by decide, by decide, by decide, ?_, rfl⟩
  rw [Remove_of_enabled longHandle
    { longHandle with
      deleteRoleArn := some (goStr "arn:aws:iam::1:role/" ++ longHandle.createRoleName) }
    calm start _ _ none rfl rfl (removeWithAttempts_of_ok _ _ _ _ 0 rfl)]
  rfl

/-- C24. When the probe fails with an error in which `errors.As` finds an operation
error, whatever that error says, the attempt returns nil; when it finds none, the
attempt returns the error. In both cases the probe is the only call of the attempt: no
delete-stack call is issued. -/
theorem C24_operation_error_is_success (cfs : CloudFormationStack) (P : Provider σ)
    (w : World σ) (err : GoError)
    (hprobe : (svcDescribeStacks P cfs.stack.StackName w).1 = Except.error err) :
    (cfs.doRemove P w).1 =
      (if err.operationError.isSome then Outcome.returned none
        else Outcome.returned (some err)) ∧
    (cfs.doRemove P w).2 = (svcDescribeStacks P cfs.stack.StackName w).2 ∧
    newCalls w (cfs.doRemove P w).2 = [Event.describeStacks cfs.stack.StackName] ∧
    (newCalls w (cfs.doRemove P w).2).filter Event.isDeleteStack = [] := by
  have h : cfs.doRemove P w =
      (if err.operationError.isSome then Outcome.returned none
        else Outcome.returned (some err), (svcDescribeStacks P cfs.stack.StackName w).2) := by
    unfold doRemove
    simp only [hprobe]
    split <;> rfl
  have hc : newCalls w (cfs.doRemove P w).2 = [Event.describeStacks cfs.stack.StackName] := by
    rw [h]
    apply newCalls_of_trace
    simp [svcDescribeStacks, World.call]
  exact ⟨by rw [h], by rw [h], hc, by rw [hc]; rfl⟩

/-- C24 (witness): the probe is refused with an operation error that reports a denied
access; the attempt returns nil. -/
theorem C24_operation_error_is_success_witness :
    (∃ err, (svcDescribeStacks probeDenied (handle {}).stack.StackName start).1
      = Except.error err ∧ err.operationError.isSome = true) ∧
    ((handle {}).doRemove probeDenied start).1 = Outcome.returned none :=
  ⟨⟨_, rfl, rfl⟩,
    (C24_operation_error_is_success (handle {}) probeDenied start _ rfl).1⟩

/-- C25. With role management on, after a provisioning that returned nil and an attempt
loop that returned `err` (nil or an error): when the delete-role call returns nil,
`Remove` returns `err`; when the delete-role call fails, `Remove` returns the delete-role
error, whatever `err` is. -/
theorem C25_result_after_teardown (cfs cfs1 : CloudFormationStack) (P : Provider σ)
    (w w1 w2 : World σ) (err : Option GoError)
    (hen : cfs.settings.EnableAutomaticRoleManagment = true)
    (hp : cfs.createServiceRoleArn P w = (Outcome.returned none, cfs1, w1))
    (hl : cfs1.removeWithAttempts P 0 w1 = (Outcome.returned err, w2)) :
    ((cfs1.deleteServiceRoleArn P w2).1 = none →
      (cfs.Remove P w).1 = Outcome.returned err) ∧
    (∀ delErr, (cfs1.deleteServiceRoleArn P w2).1 = some delErr →
      (cfs.Remove P w).1 = Outcome.returned (some delErr)) := by
  have h := Remove_of_enabled _ _ _ _ _ _ _ hen hp hl
  constructor
  · intro hd
    rw [h, hd]
  · intro delErr hd
    rw [h, hd]

/-- C25 (witness): every delete-stack call is refused, so that the attempt loop returns
the exhausted-budget error, and the role deletion is refused as well; `Remove` returns
the refusal of the role deletion. -/
theorem C25_result_after_teardown_witness :
    (handle { EnableAutomaticRoleManagment := true }).createServiceRoleArn
        protectedTeardownDenied start
      = (Outcome.returned none,
        { handle { EnableAutomaticRoleManagment := true } with
          deleteRoleArn := some (goStr "arn:aws:iam::1:role/nuke-service-role-CFS-app") },
        after [Event.getRole (goStr "nuke-service-role-CFS-app"),
          Event.createRole (handle {}).createRoleParams,
          Event.attachRolePolicy (handle {}).attachPolicyParams]) ∧
    ((handle { EnableAutomaticRoleManagment := true }).Remove protectedTeardownDenied start).1
      = Outcome.returned (some roleInUse) ∧
    roleInUse ≠ attemptsExhausted := by
  have hd : ∀ w : World Unit,
      CloudFormationStack.doRemove
        { handle { EnableAutomaticRoleManagment := true } with
          deleteRoleArn := some (goStr "arn:aws:iam::1:role/nuke-service-role-CFS-app") }
        protectedTeardownDenied w =
      (Outcome.returned (some protectionBlocked),
        after (w.trace ++ [Event.describeStacks (goStr "app"),
          Event.deleteStack
            { StackName := goStr "app", RoleARN := some (goStr "arn:aws:iam::1:role/nuke-service-role-CFS-app") }])) := by
    intro w
    simp [doRemove, handle, protectedTeardownDenied, protectedStack, calm, svcDescribeStacks,
      svcDeleteStack, World.call, waitForStackToStabilize, after]
  exact ⟨rfl,
    (C25_result_after_teardown (handle { EnableAutomaticRoleManagment := true })
      { handle { EnableAutomaticRoleManagment := true } with
        deleteRoleArn := some (goStr "arn:aws:iam::1:role/nuke-service-role-CFS-app") }
      protectedTeardownDenied start _ _ (some attemptsExhausted) rfl rfl
      (removeWithAttempts_exhausts _ protectedTeardownDenied
        (fun w => after (w.trace ++ [Event.describeStacks (goStr "app"),
          Event.deleteStack
            { StackName := goStr "app", RoleARN := some (goStr "arn:aws:iam::1:role/nuke-service-role-CFS-app") }]))
        (fun w => ⟨protectionBlocked, _, hd w, negotiateProtection_eq _ _ _ _⟩) 3 0 _ rfl)).2
      roleInUse rfl,
    by decide⟩

/-- C26 (code at the failing input). An attachment to a role with path `/`, no tags and
no custom filter: no filter matches, yet `FilterbyCustomFilters` of the attachment has
not returned within any depth of self-calls (it calls itself again after the loop), and
for every attachment, matcher and depth its result is never nil. On the same path, tags
and filters the methods of `IAMRole`, `IAMPolicy` and `IAMRolePolicy` return nil. -/
theorem C26_attachment_filter_never_returns_nil :
    (∀ (matchString : GoString → GoString → Bool) (fuel : Nat),
      plainAttachment.FilterbyCustomFilters matchString fuel = none) ∧
    (∀ (r : IAMRolePolicyAttachment) (matchString : GoString → GoString → Bool) (fuel : Nat),
      r.FilterbyCustomFilters matchString fuel ≠ some (Outcome.returned none)) ∧
    (∀ (matchString : GoString → GoString → Bool),
      plainRole.FilterbyCustomFilters matchString = Outcome.returned none ∧
      IAMPolicy.FilterbyCustomFilters { Path := some (goStr "/") } matchString
        = Outcome.returned none ∧
      IAMRolePolicy.FilterbyCustomFilters { rolePath := goStr "/" } matchString
        = Outcome.returned none) :=
  ⟨fun matchString fuel => attachment_filter_diverges plainAttachment matchString rfl fuel,
    attachment_filter_ne_nil,
    fun _ => ⟨rfl, rfl, rfl⟩⟩

/-- C27. For a role with a path: `Filter` returns the error `cannot delete SSO roles` when
the path starts with `/aws-reserved/sso.amazonaws.com/`, whatever the settings and the
custom filters; it returns the error `cannot delete service roles` when the path starts
with `/aws-service-role/` and `IncludeServiceLinkedRoles` is false; and for every other
role, that is a path without the SSO prefix that either lacks the service-role prefix or
comes with `IncludeServiceLinkedRoles` true, it returns what `FilterbyCustomFilters`
returns. -/
theorem C27_role_filter (r : IAMRole) (matchString : GoString → GoString → Bool)
    (path : GoString) (hpath : r.Path = some path) :
    (∀ rest, path = goStr "/aws-reserved/sso.amazonaws.com/" ++ rest →
      r.Filter matchString = Outcome.returned (some (errorsNew "cannot delete SSO roles"))) ∧
    (∀ rest, path = goStr "/aws-service-role/" ++ rest →
      r.settings.IncludeServiceLinkedRoles = false →
      r.Filter matchString = Outcome.returned (some (errorsNew "cannot delete service roles"))) ∧
    ((goStr "/aws-reserved/sso.amazonaws.com/").isPrefixOf path = false →
      ((goStr "/aws-service-role/").isPrefixOf path = false ∨
        r.settings.IncludeServiceLinkedRoles = true) →
      r.Filter matchString = r.FilterbyCustomFilters matchString) := by
  refine ⟨?_, ?_, ?_⟩
  · intro rest hrest
    have hsso : (goStr "/aws-reserved/sso.amazonaws.com/").isPrefixOf path = true := by
      rw [hrest]; exact isPrefixOf_append_self _ _
    have hsvc : (goStr "/aws-service-role/").isPrefixOf path = false := by
      rw [hrest]; exact service_prefix_of_sso rest
    unfold IAMRole.Filter
    simp [hpath, hsso, hsvc]
  · intro rest hrest hoff
    have hsvc : (goStr "/aws-service-role/").isPrefixOf path = true := by
      rw [hrest]; exact isPrefixOf_append_self _ _
    unfold IAMRole.Filter
    simp [hpath, hsvc, hoff]
  · intro h2 h1
    unfold IAMRole.Filter
    rcases h1 with h1 | h1
    · simp [hpath, h1, h2]
    · simp [hpath, h1, h2]

/-- C27 (witness): a role under the SSO path is filtered; a service-linked role with
`IncludeServiceLinkedRoles` true is handed to the custom filters, which let it pass. -/
theorem C27_role_filter_witness :
    (ssoRole.Path = some (goStr "/aws-reserved/sso.amazonaws.com/" ++ goStr "eu-west-1/") ∧
      ssoRole.Filter matchNothing = Outcome.returned (some (errorsNew "cannot delete SSO roles"))) ∧
    (linkedRole.Path = some (goStr "/aws-service-role/" ++ goStr "ecs.amazonaws.com/") ∧
      linkedRole.settings.IncludeServiceLinkedRoles = true ∧
      linkedRole.Filter matchNothing = linkedRole.FilterbyCustomFilters matchNothing ∧
      linkedRole.FilterbyCustomFilters matchNothing = Outcome.returned none) :=
  ⟨⟨rfl, (C27_role_filter ssoRole matchNothing _ rfl).1 (goStr "eu-west-1/") rfl⟩,
    ⟨rfl, rfl, (C27_role_filter linkedRole matchNothing _ rfl).2.2 rfl (Or.inr rfl), rfl⟩⟩

end Resources
